import Mathlib

/-!
Shallow embedding of the MAYO signature crate (GF(16) arithmetic, nibble
codec, bitsliced limb vectors, constant-time echelon solver, key
derivation, signing and verification control flow), together with
theorems checking the natural-language specification against it.

Machine integers are modelled as `Nat` with explicit reduction
`% 2 ^ w` (or a final mask) exactly where the source performs wrapping
arithmetic; byte and limb buffers are `List Nat`; in-place mutation is
functional update.  Out-of-range reads yield 0 and out-of-range writes
are dropped (the Rust code never performs them on well-sized inputs).
-/

/-- Read index `i` of a byte/limb buffer (0 when out of range). -/
def getN (xs : List Nat) (i : Nat) : Nat := xs.getD i 0

/-- Write index `i` of a buffer (dropped when out of range). -/
def setN (xs : List Nat) (i v : Nat) : List Nat := xs.set i v

/-- In-place `xs[i] ^= v`, as used pervasively by the source. -/
def xorAt (xs : List Nat) (i v : Nat) : List Nat := xs.set i (getN xs i ^^^ v)

/-- Model of `dst[off..off+src.len()].copy_from_slice(&src)`. -/
def copySlice (dst : List Nat) (off : Nat) (src : List Nat) : List Nat :=
  (List.range src.length).foldl (fun d j => setN d (off + j) (getN src j)) dst

/-- Loop helper: fold over `lo, lo+1, ..., lo+len-1`. -/
def foldRange (lo len : Nat) (s : α) (f : α → Nat → α) : α :=
  (List.range' lo len).foldl f s

/-- Error taxonomy of `src/error.rs`. -/
inductive Error where
  | KeyGeneration : Error
  | Signing : Error
  | VerificationFailed : Error
  | InvalidKeyLength (expected got : Nat) : Error
  | InvalidSignatureLength (expected got : Nat) : Error
  | InvalidSeedLength (expected got : Nat) : Error
deriving DecidableEq, Repr

/-- A MAYO parameter set (`src/params.rs`, trait `MayoParameter`).
Field `V` is derived as `n - o`, `aCols` as `k*o + 1` and the limb
counts by the triangular-count formulas, exactly as in the macro. -/
structure MayoParams where
  N : Nat
  M : Nat
  O : Nat
  K : Nat
  mVecLimbs : Nat
  mBytes : Nat
  oBytes : Nat
  vBytes : Nat
  rBytes : Nat
  p1Bytes : Nat
  p2Bytes : Nat
  p3Bytes : Nat
  cskBytes : Nat
  cpkBytes : Nat
  sigBytes : Nat
  saltBytes : Nat
  digestBytes : Nat
  pkSeedBytes : Nat
  skSeedBytes : Nat
  fTail : List Nat
deriving DecidableEq, Repr

/-- Vinegar dimension `V = n - o`. -/
def MayoParams.V (p : MayoParams) : Nat := p.N - p.O

/-- Columns of the linearized system, `A_COLS = k*o + 1`. -/
def MayoParams.aCols (p : MayoParams) : Nat := p.K * p.O + 1

/-- `P1_LIMBS = v(v+1)/2 * m_vec_limbs`. -/
def MayoParams.p1Limbs (p : MayoParams) : Nat := p.V * (p.V + 1) / 2 * p.mVecLimbs

/-- `P2_LIMBS = v*o*m_vec_limbs`. -/
def MayoParams.p2Limbs (p : MayoParams) : Nat := p.V * p.O * p.mVecLimbs

/-- `P3_LIMBS = o(o+1)/2 * m_vec_limbs`. -/
def MayoParams.p3Limbs (p : MayoParams) : Nat := p.O * (p.O + 1) / 2 * p.mVecLimbs

/-- `F_TAIL_LEN` of `src/params.rs`. -/
def F_TAIL_LEN : Nat := 4

/-- MAYO_1 parameter set. -/
def mayo1 : MayoParams :=
  { N := 86, M := 78, O := 8, K := 10, mVecLimbs := 5,
    mBytes := 39, oBytes := 312, vBytes := 39, rBytes := 40,
    p1Bytes := 120159, p2Bytes := 24336, p3Bytes := 1404,
    cskBytes := 24, cpkBytes := 1420, sigBytes := 454,
    saltBytes := 24, digestBytes := 32,
    pkSeedBytes := 16, skSeedBytes := 24,
    fTail := [8, 1, 1, 0] }

/-- MAYO_2 parameter set. -/
def mayo2 : MayoParams :=
  { N := 81, M := 64, O := 17, K := 4, mVecLimbs := 4,
    mBytes := 32, oBytes := 544, vBytes := 32, rBytes := 34,
    p1Bytes := 66560, p2Bytes := 34816, p3Bytes := 4896,
    cskBytes := 24, cpkBytes := 4912, sigBytes := 186,
    saltBytes := 24, digestBytes := 32,
    pkSeedBytes := 16, skSeedBytes := 24,
    fTail := [8, 0, 2, 8] }

/-- MAYO_3 parameter set. -/
def mayo3 : MayoParams :=
  { N := 118, M := 108, O := 10, K := 11, mVecLimbs := 7,
    mBytes := 54, oBytes := 540, vBytes := 54, rBytes := 55,
    p1Bytes := 317844, p2Bytes := 58320, p3Bytes := 2970,
    cskBytes := 32, cpkBytes := 2986, sigBytes := 681,
    saltBytes := 32, digestBytes := 48,
    pkSeedBytes := 16, skSeedBytes := 32,
    fTail := [8, 0, 1, 7] }

/-- MAYO_5 parameter set. -/
def mayo5 : MayoParams :=
  { N := 154, M := 142, O := 12, K := 12, mVecLimbs := 9,
    mBytes := 71, oBytes := 852, vBytes := 71, rBytes := 72,
    p1Bytes := 720863, p2Bytes := 120984, p3Bytes := 5538,
    cskBytes := 40, cpkBytes := 5554, sigBytes := 964,
    saltBytes := 40, digestBytes := 64,
    pkSeedBytes := 16, skSeedBytes := 40,
    fTail := [4, 0, 8, 1] }

/-! ### `src/gf16.rs`: scalar GF(16) arithmetic -/

/-- `mul_f`: carryless multiply of two GF(16) elements followed by
reduction mod `x^4 + x + 1`.  The four partial products use `u8`
wrapping multiplication, modelled by `% 256`. -/
def mul_f (a b : Nat) : Nat :=
  let p0 := ((a &&& 1) * b) % 256
  let p1 := p0 ^^^ ((a &&& 2) * b) % 256
  let p2 := p1 ^^^ ((a &&& 4) * b) % 256
  let p3 := p2 ^^^ ((a &&& 8) * b) % 256
  let top_p := p3 &&& 0xf0
  (p3 ^^^ (top_p >>> 4) ^^^ (top_p >>> 3)) &&& 0x0f

/-- `mul_fx8`: multiply a GF(16) scalar by 8 packed GF(16) elements in a
u64 (wrapping u64 multiplications modelled by `% 2^64`). -/
def mul_fx8 (a b : Nat) : Nat :=
  let p0 := ((a &&& 1) * b) % (2 ^ 64)
  let p1 := p0 ^^^ ((a &&& 2) * b) % (2 ^ 64)
  let p2 := p1 ^^^ ((a &&& 4) * b) % (2 ^ 64)
  let p3 := p2 ^^^ ((a &&& 8) * b) % (2 ^ 64)
  let top_p := p3 &&& 0xf0f0f0f0f0f0f0f0
  (p3 ^^^ (top_p >>> 4) ^^^ (top_p >>> 3)) &&& 0x0f0f0f0f0f0f0f0f

/-- `add_f`: GF(16) addition (XOR). -/
def add_f (a b : Nat) : Nat := a ^^^ b

/-- `sub_f`: GF(16) subtraction (XOR). -/
def sub_f (a b : Nat) : Nat := a ^^^ b

/-- `inverse_f`: multiplicative inverse as `a^14 = a^8 * a^6`. -/
def inverse_f (a : Nat) : Nat :=
  let a2 := mul_f a a
  let a4 := mul_f a2 a2
  let a8 := mul_f a4 a4
  let a6 := mul_f a2 a4
  mul_f a8 a6

/-- `mul_table`: multiplication lookup word for scalar `b`
(`u32` wrapping multiply then the in-lane reduction). -/
def mul_table (b : Nat) : Nat :=
  let x := (b * 0x08040201) % (2 ^ 32)
  let high_half := x &&& 0xf0f0f0f0
  x ^^^ (high_half >>> 4) ^^^ (high_half >>> 3)

/-- `lincomb`: sum of `a[i] * b[i*m]` for `i in 0..n`. -/
def lincomb (a b : List Nat) (n m : Nat) : Nat :=
  foldRange 0 n 0 (fun ret i => add_f (mul_f (getN a i) (getN b (i * m))) ret)

/-- `mat_mul`: `c = a * b` with `a : row_a x colrow_ab`, `b : colrow_ab x col_b`. -/
def mat_mul (a b c : List Nat) (colrow_ab row_a col_b : Nat) : List Nat :=
  foldRange 0 row_a c (fun c i =>
    foldRange 0 col_b c (fun c j =>
      setN c (i * col_b + j) (lincomb (a.drop (i * colrow_ab)) (b.drop j) colrow_ab col_b)))

/-- `mat_add`: `c = a + b` entrywise for `m x n` matrices. -/
def mat_add (a b c : List Nat) (m n : Nat) : List Nat :=
  foldRange 0 m c (fun c i =>
    foldRange 0 n c (fun c j =>
      setN c (i * n + j) (add_f (getN a (i * n + j)) (getN b (i * n + j)))))

/-! ### `src/codec.rs`: nibble codec -/

/-- `decode`: unpack `len` GF(16) nibbles from packed bytes, low nibble
first; an odd tail takes only the low nibble of the last byte. -/
def decode : List Nat → Nat → List Nat
  | _, 0 => []
  | [], _ + 1 => []
  | b :: _, 1 => [b &&& 0x0f]
  | b :: rest, n + 2 => (b &&& 0x0f) :: (b >>> 4) :: decode rest n

/-- `encode`: pack `len` GF(16) elements into bytes, low nibble first; an
odd tail byte is the final element written as-is (no masking). -/
def encode : List Nat → Nat → List Nat
  | _, 0 => []
  | [], _ + 1 => []
  | a :: _, 1 => [a]
  | [_], _ + 2 => []
  | a :: b :: rest, n + 2 => (a ||| ((b <<< 4) % 256)) :: encode rest n

/-- `unpack_m_vecs`: unpack `vecs` packed byte vectors (each `m/2` bytes)
into bitsliced u64 limbs (each vector `⌈m/16⌉` little-endian limbs),
iterating backwards as the source does. -/
def unpack_m_vecs (input output : List Nat) (vecs m : Nat) : List Nat :=
  let m_vec_limbs := (m + 15) / 16
  let packed_size := m / 2
  let limb_bytes := m_vec_limbs * 8
  ((List.range vecs).reverse).foldl (fun out i =>
    let tmp_bytes := copySlice (List.replicate limb_bytes 0) 0
      ((input.drop (i * packed_size)).take packed_size)
    let tmp := (List.range m_vec_limbs).map (fun j =>
      foldRange 0 8 0 (fun val b =>
        let idx := j * 8 + b
        if idx < limb_bytes then val ||| (getN tmp_bytes idx <<< (b * 8)) else val))
    copySlice out (i * m_vec_limbs) tmp) output

/-- `pack_m_vecs`: pack bitsliced limb vectors back into `m/2`-byte packed
vectors (little-endian bytes, `as u8` truncation). -/
def pack_m_vecs (input output : List Nat) (vecs m : Nat) : List Nat :=
  let m_vec_limbs := (m + 15) / 16
  let packed_size := m / 2
  foldRange 0 vecs output (fun out i =>
    let src := (input.drop (i * m_vec_limbs)).take m_vec_limbs
    foldRange 0 packed_size out (fun out j =>
      let limb_idx := j / 8
      let byte_idx := j % 8
      setN out (i * packed_size + j) ((getN src limb_idx >>> (byte_idx * 8)) &&& 0xff)))

/-! ### `src/bitsliced.rs`: bitsliced m-vector operations -/

/-- `m_vec_copy`: `dst[..mvl] = src[..mvl]`. -/
def m_vec_copy (src dst : List Nat) (m_vec_limbs : Nat) : List Nat :=
  copySlice dst 0 (src.take m_vec_limbs)

/-- `m_vec_add`: `acc[i] ^= src[i]` for `i < m_vec_limbs`. -/
def m_vec_add (src acc : List Nat) (m_vec_limbs : Nat) : List Nat :=
  foldRange 0 m_vec_limbs acc (fun acc i => setN acc i (getN acc i ^^^ getN src i))

/-- `m_vec_mul_add`: bitsliced multiply-accumulate `acc += src * a` via the
four bit-planes and `mul_table` (wrapping u64 multiplies). -/
def m_vec_mul_add (src : List Nat) (a : Nat) (acc : List Nat) (m_vec_limbs : Nat) :
    List Nat :=
  let tab := mul_table a
  let lsb_mask : Nat := 0x1111111111111111
  foldRange 0 m_vec_limbs acc (fun acc i =>
    setN acc i (getN acc i ^^^
      ((((getN src i &&& lsb_mask) * (tab &&& 0xff)) % 2 ^ 64) ^^^
       ((((getN src i >>> 1) &&& lsb_mask) * ((tab >>> 8) &&& 0xf)) % 2 ^ 64) ^^^
       ((((getN src i >>> 2) &&& lsb_mask) * ((tab >>> 16) &&& 0xf)) % 2 ^ 64) ^^^
       ((((getN src i >>> 3) &&& lsb_mask) * ((tab >>> 24) &&& 0xf)) % 2 ^ 64))))

/-- `vec_mul_add_u64`: same multiply-accumulate with an explicit limb
count `legs` (used by the echelon solver). -/
def vec_mul_add_u64 (legs : Nat) (src : List Nat) (a : Nat) (acc : List Nat) :
    List Nat :=
  let tab := mul_table a
  let lsb_mask : Nat := 0x1111111111111111
  foldRange 0 legs acc (fun acc i =>
    setN acc i (getN acc i ^^^
      ((((getN src i &&& lsb_mask) * (tab &&& 0xff)) % 2 ^ 64) ^^^
       ((((getN src i >>> 1) &&& lsb_mask) * ((tab >>> 8) &&& 0xf)) % 2 ^ 64) ^^^
       ((((getN src i >>> 2) &&& lsb_mask) * ((tab >>> 16) &&& 0xf)) % 2 ^ 64) ^^^
       ((((getN src i >>> 3) &&& lsb_mask) * ((tab >>> 24) &&& 0xf)) % 2 ^ 64))))

/-- One `m_vec_mul_add_x_inv`-style block of `m_vec_multiply_bins`:
`bins[dst..] ^= bins[src..] * x^{-1}` (mask `LSB`, shift right, times 9). -/
def mulAddXInvAt (bins : List Nat) (srcOff dstOff m_vec_limbs : Nat) : List Nat :=
  let mask_lsb : Nat := 0x1111111111111111
  foldRange 0 m_vec_limbs bins (fun b i =>
    let s := getN b (srcOff + i)
    let t := s &&& mask_lsb
    setN b (dstOff + i)
      (getN b (dstOff + i) ^^^ (((s ^^^ t) >>> 1) ^^^ ((t * 9) % 2 ^ 64))))

/-- One `m_vec_mul_add_x`-style block of `m_vec_multiply_bins`:
`bins[dst..] ^= bins[src..] * x` (mask `MSB`, shift left, times 3). -/
def mulAddXAt (bins : List Nat) (srcOff dstOff m_vec_limbs : Nat) : List Nat :=
  let mask_msb : Nat := 0x8888888888888888
  foldRange 0 m_vec_limbs bins (fun b i =>
    let s := getN b (srcOff + i)
    let t := s &&& mask_msb
    setN b (dstOff + i)
      (getN b (dstOff + i) ^^^ ((((s ^^^ t) <<< 1) % 2 ^ 64) ^^^ (((t >>> 3) * 3) % 2 ^ 64))))

/-- `m_vec_multiply_bins`: reduce 16 bin accumulators to `Σ bin[i]·i` by
the fixed 14-step x / x⁻¹ schedule of the source, result in bin 1. -/
def m_vec_multiply_bins (bins : List Nat) (m_vec_limbs : Nat) : List Nat :=
  let b := mulAddXInvAt bins (5 * m_vec_limbs) (10 * m_vec_limbs) m_vec_limbs
  let b := mulAddXAt b (11 * m_vec_limbs) (12 * m_vec_limbs) m_vec_limbs
  let b := mulAddXInvAt b (10 * m_vec_limbs) (7 * m_vec_limbs) m_vec_limbs
  let b := mulAddXAt b (12 * m_vec_limbs) (6 * m_vec_limbs) m_vec_limbs
  let b := mulAddXInvAt b (7 * m_vec_limbs) (14 * m_vec_limbs) m_vec_limbs
  let b := mulAddXAt b (6 * m_vec_limbs) (3 * m_vec_limbs) m_vec_limbs
  let b := mulAddXInvAt b (14 * m_vec_limbs) (15 * m_vec_limbs) m_vec_limbs
  let b := mulAddXAt b (3 * m_vec_limbs) (8 * m_vec_limbs) m_vec_limbs
  let b := mulAddXInvAt b (15 * m_vec_limbs) (13 * m_vec_limbs) m_vec_limbs
  let b := mulAddXAt b (8 * m_vec_limbs) (4 * m_vec_limbs) m_vec_limbs
  let b := mulAddXInvAt b (13 * m_vec_limbs) (9 * m_vec_limbs) m_vec_limbs
  let b := mulAddXAt b (4 * m_vec_limbs) (2 * m_vec_limbs) m_vec_limbs
  let b := mulAddXInvAt b (9 * m_vec_limbs) (1 * m_vec_limbs) m_vec_limbs
  let b := mulAddXAt b (2 * m_vec_limbs) (1 * m_vec_limbs) m_vec_limbs
  (b.drop m_vec_limbs).take m_vec_limbs


/-! ### `src/echelon.rs`: constant-time row echelon form -/

/-- Bitwise NOT on a u64 bit pattern. -/
def not64 (x : Nat) : Nat := x ^^^ (2 ^ 64 - 1)

/-- `m_extract_element`: extract GF(16) nibble `index` from packed u64 limbs. -/
def m_extract_element (data : List Nat) (index : Nat) : Nat :=
  (getN data (index / 16) >>> ((index % 16) * 4)) &&& 0xF

/-- `ct_compare_64`: 0 when `a = b`, all-ones otherwise.  Models
`((-((a ^ b) as i64)) >> 63) as u64` for the nonnegative i32 inputs the
source feeds it (two's complement negation then arithmetic shift). -/
def ct_compare_64 (a b : Nat) : Nat :=
  let diff := a ^^^ b
  let neg := (2 ^ 64 - diff) % 2 ^ 64
  if 2 ^ 63 <= neg then 2 ^ 64 - 1 else 0

/-- `ct_64_is_greater_than`: all-ones when `a > b`, else 0.  Models
`(((b as i64) - (a as i64)) >> 63) as u64`. -/
def ct_64_is_greater_than (a b : Nat) : Nat :=
  let diff := (2 ^ 64 + b - a) % 2 ^ 64
  if 2 ^ 63 <= diff then 2 ^ 64 - 1 else 0

/-- `ct_compare_8`: 0 when `a = b`, `0xFF` otherwise.  Models
`(((-((a ^ b) as i32)) >> 31) as i8) as u8`. -/
def ct_compare_8 (a b : Nat) : Nat :=
  let diff := a ^^^ b
  let neg := (2 ^ 32 - diff) % 2 ^ 32
  if 2 ^ 31 <= neg then 0xFF else 0

/-- `ef_pack_m_vec_safe`: pack a row of `ncols` GF(16) bytes into
`row_len` u64 limbs, two nibbles per byte, low nibble first. -/
def ef_pack_m_vec_safe (input : List Nat) (row_len ncols : Nat) : List Nat :=
  let out0 := List.replicate row_len 0
  let out1 := foldRange 0 (ncols / 2) out0 (fun out p =>
    let i := 2 * p
    let byte_val := getN input i ||| ((getN input (i + 1) <<< 4) % 2 ^ 64)
    let limb_idx := (i / 2) / 8
    let byte_idx := (i / 2) % 8
    setN out limb_idx (getN out limb_idx ||| ((byte_val <<< (byte_idx * 8)) % 2 ^ 64)))
  if ncols % 2 == 1 then
    let i := 2 * (ncols / 2)
    let byte_val := getN input i
    let limb_idx := (i / 2) / 8
    let byte_idx := (i / 2) % 8
    setN out1 limb_idx (getN out1 limb_idx ||| ((byte_val <<< (byte_idx * 8)) % 2 ^ 64))
  else out1

/-- `ef_unpack_m_vec_safe`: unpack `legs` u64 limbs into `legs * 16`
GF(16) nibbles (pairs per byte, low nibble first). -/
def ef_unpack_m_vec_safe (legs : Nat) (input : List Nat) : List Nat :=
  (List.range (legs * 16)).map (fun i =>
    let limb_idx := (i / 2) / 8
    let byte_idx := (i / 2) % 8
    let byte_val := (getN input limb_idx >>> (byte_idx * 8)) &&& 0xFF
    if i % 2 == 0 then byte_val &&& 0xF else byte_val >>> 4)

/-- One `pivot_col` step of `ef`'s main loop: constant-time pivot search,
normalization, conditional write-back and elimination below. -/
def ef_step (nrows ncols row_len : Nat) (st : List Nat × Nat) (pivot_col : Nat) :
    List Nat × Nat :=
  let packed_a := st.1
  let pivot_row := st.2
  let pivot_row_lower_bound := (pivot_col + nrows) - ncols
  let pivot_row_upper_bound := min (nrows - 1) pivot_col
  let search_upper := min (nrows - 1) (pivot_row_upper_bound + 32)
  let s1 := foldRange pivot_row_lower_bound (search_upper + 1 - pivot_row_lower_bound)
    ((List.replicate row_len 0, 0, 2 ^ 64 - 1) : List Nat × Nat × Nat)
    (fun s row =>
      let is_pivot_row := not64 (ct_compare_64 row pivot_row)
      let below_pivot_row := ct_64_is_greater_than row pivot_row
      let prp := foldRange 0 row_len s.1 (fun prp j =>
        setN prp j (getN prp j ^^^
          ((is_pivot_row ||| (below_pivot_row &&& s.2.2)) &&&
            getN packed_a (row * row_len + j))))
      let pivot := m_extract_element prp pivot_col
      (prp, pivot, not64 (ct_compare_64 pivot 0)))
  let pivot_row_packed := s1.1
  let pivot_is_zero := s1.2.2
  let inverse := inverse_f s1.2.1
  let pivot_row2 := vec_mul_add_u64 row_len pivot_row_packed inverse
    (List.replicate row_len 0)
  let packed_a1 := foldRange pivot_row_lower_bound
    (pivot_row_upper_bound + 1 - pivot_row_lower_bound) packed_a (fun pa row =>
      let do_copy := not64 (ct_compare_64 row pivot_row) &&& not64 pivot_is_zero
      let do_not_copy := not64 do_copy
      foldRange 0 row_len pa (fun pa col =>
        setN pa (row * row_len + col)
          (((do_not_copy &&& getN pa (row * row_len + col)) +
            (do_copy &&& getN pivot_row2 col)) % 2 ^ 64)))
  let packed_a2 := foldRange pivot_row_lower_bound (nrows - pivot_row_lower_bound)
    packed_a1 (fun pa row =>
      let below_pivot := if pivot_row < row then 1 else 0
      let row_slice := (pa.drop (row * row_len)).take row_len
      let elt_to_elim := m_extract_element row_slice pivot_col
      let newrow := vec_mul_add_u64 row_len pivot_row2
        ((below_pivot * elt_to_elim) % 256) row_slice
      copySlice pa (row * row_len) newrow)
  (packed_a2, pivot_row + (if pivot_is_zero == 0 then 1 else 0))

/-- `ef`: put an `nrows x ncols` GF(16) byte matrix in row echelon form
with leading ones, in constant time: pack the rows into u64 limbs, run
`ef_step` for every pivot column, unpack. -/
def ef (a : List Nat) (nrows ncols : Nat) : List Nat :=
  let row_len := (ncols + 15) / 16
  let packed_a0 := foldRange 0 nrows (List.replicate (row_len * nrows) 0) (fun pa i =>
    copySlice pa (i * row_len)
      (ef_pack_m_vec_safe ((a.drop (i * ncols)).take ncols) row_len ncols))
  let st := foldRange 0 ncols ((packed_a0, 0) : List Nat × Nat)
    (ef_step nrows ncols row_len)
  foldRange 0 nrows a (fun acc i =>
    let temp := ef_unpack_m_vec_safe row_len ((st.1.drop (i * row_len)).take row_len)
    copySlice acc (i * ncols) (temp.take ncols))

/-! ### `src/sample.rs`: constant-time solution sampling -/

/-- `sample_solution`: sample `x` with `Ax = y`, randomized by `r`.
Returns the success flag together with the final `x` (the mutated matrix
scratch is internal).  Mirrors the source: seed `x` with `r`, overwrite
the last column of `A` with `y - Ar`, run `ef`, test the last row, then
back-substitute in constant time. -/
def sample_solution (a y r x : List Nat) (k o m a_cols : Nat) : Bool × List Nat :=
  let ko := k * o
  let x1 := copySlice x 0 (r.take ko)
  let a1 := foldRange 0 m a (fun a i => setN a (ko + i * a_cols) 0)
  let ar := mat_mul a1 r (List.replicate m 0) a_cols m 1
  let a2 := foldRange 0 m a1 (fun a i =>
    setN a (ko + i * a_cols) (sub_f (getN y i) (getN ar i)))
  let a3 := ef a2 m a_cols
  let full_rank := foldRange 0 (a_cols - 1) 0 (fun fr i =>
    fr ||| getN a3 ((m - 1) * a_cols + i))
  if full_rank == 0 then (false, x1)
  else
    let st := ((List.range m).reverse).foldl (fun (st : List Nat × List Nat) row =>
      let col_upper_bound := min (row + 32 / (m - row)) ko
      let s2 := foldRange row (col_upper_bound + 1 - row)
        ((st.1, st.2, (0 : Nat)) : List Nat × List Nat × Nat)
        (fun s col =>
          let a := s.1
          let finished := s.2.2
          let correct_column := ct_compare_8 (getN a (row * a_cols + col)) 0 &&&
            (finished ^^^ 0xff)
          let u := correct_column &&& getN a (row * a_cols + a_cols - 1)
          let x2 := setN s.2.1 col (getN s.2.1 col ^^^ u)
          let a2 := foldRange 0 ((row + 7) / 8) a (fun a blk =>
            let i := blk * 8
            let end_ := min (i + 8) row
            let tmp := foldRange i (end_ - i) 0 (fun tmp ii =>
              tmp ^^^ ((getN a (ii * a_cols + col) <<< ((ii - i) * 8)) % 2 ^ 64))
            let tmp2 := mul_fx8 u tmp
            foldRange i (end_ - i) a (fun a ii =>
              setN a (ii * a_cols + a_cols - 1)
                (getN a (ii * a_cols + a_cols - 1) ^^^
                  ((tmp2 >>> ((ii - i) * 8)) &&& 0xf))))
          (a2, x2, finished ||| correct_column))
      (s2.1, s2.2.1)) (a3, x1)
    (true, st.2)

/-- Spec-side predicate, written from the words of the specification
claim (NOT from the source): a matrix is in reduced row-echelon form with
leading ones when every nonzero row's leading entry (its pivot) is 1 and
every other entry in a pivot's column, above or below, is zero. -/
def spec_rref (a : List Nat) (nrows ncols : Nat) : Bool :=
  (List.range nrows).all (fun i =>
    match ((a.drop (i * ncols)).take ncols).findIdx? (fun v => v != 0) with
    | none => true
    | some j =>
      getN a (i * ncols + j) == 1 &&
      (List.range nrows).all (fun i2 => i2 == i || getN a (i2 * ncols + j) == 0))

/-- Spec-side predicate (from the spec sentence "rows below any pivot are
zero in pivot columns"): every entry strictly below a pivot, in the
pivot's column, is zero. -/
def spec_below_pivots_zero (a : List Nat) (nrows ncols : Nat) : Bool :=
  (List.range nrows).all (fun i =>
    match ((a.drop (i * ncols)).take ncols).findIdx? (fun v => v != 0) with
    | none => true
    | some j =>
      (List.range nrows).all (fun i2 => i2 <= i || getN a (i2 * ncols + j) == 0))


/-! ### Key and signature loading (`src/mayo_signature.rs`,
`src/verifying_key.rs`, `src/signing_key.rs`) -/

/-- `Signature::try_from(&[u8])`: length check against `SIG_BYTES`, then
store the bytes. -/
def signature_try_from (p : MayoParams) (bytes : List Nat) : Except Error (List Nat) :=
  if bytes.length != p.sigBytes then
    .error (.InvalidSignatureLength p.sigBytes bytes.length)
  else .ok bytes

/-- `VerifyingKey::try_from(&[u8])`: length check against `CPK_BYTES`. -/
def verifying_key_try_from (p : MayoParams) (bytes : List Nat) :
    Except Error (List Nat) :=
  if bytes.length != p.cpkBytes then
    .error (.InvalidKeyLength p.cpkBytes bytes.length)
  else .ok bytes

/-- `SigningKey::try_from(&[u8])`: length check against `CSK_BYTES`. -/
def signing_key_try_from (p : MayoParams) (bytes : List Nat) :
    Except Error (List Nat) :=
  if bytes.length != p.cskBytes then
    .error (.InvalidKeyLength p.cskBytes bytes.length)
  else .ok bytes


/-- Value of a list of base-16 digits (least significant first); used to
reason about the nibble lanes of a u64 limb. -/
def nibs2nat : List Nat → Nat
  | [] => 0
  | d :: ds => d + 16 * nibs2nat ds


/-! ### `src/matrix_ops.rs`: matrix kernels over m-vectors -/

/-- Model of `m_vec_mul_add(&bs[srcOff..], scalar, &mut acc[dstOff..], mvl)`
on slices of flat limb buffers. -/
def sliceMulAdd (bs : List Nat) (srcOff scalar : Nat) (acc : List Nat)
    (dstOff m_vec_limbs : Nat) : List Nat :=
  copySlice acc dstOff
    (m_vec_mul_add ((bs.drop srcOff).take m_vec_limbs) scalar
      ((acc.drop dstOff).take m_vec_limbs) m_vec_limbs)

/-- Model of `m_vec_add(&bs[srcOff..], &mut acc[dstOff..], mvl)` on slices. -/
def sliceAdd (bs : List Nat) (srcOff : Nat) (acc : List Nat)
    (dstOff m_vec_limbs : Nat) : List Nat :=
  copySlice acc dstOff
    (m_vec_add ((bs.drop srcOff).take m_vec_limbs)
      ((acc.drop dstOff).take m_vec_limbs) m_vec_limbs)

/-- `mul_add_m_upper_triangular_mat_x_mat`: multiply (possibly
upper-triangular) bitsliced matrices by a byte matrix, accumulating;
`bs_mat_entries_used` is threaded as fold state. -/
def mul_add_m_upper_triangular_mat_x_mat (m_vec_limbs : Nat)
    (bs_mat mat acc : List Nat) (bs_mat_rows bs_mat_cols mat_cols : Nat)
    (triangular : Bool) : List Nat :=
  (foldRange 0 bs_mat_rows ((acc, 0) : List Nat × Nat) (fun st r =>
    let c_start := if triangular then r else 0
    foldRange c_start (bs_mat_cols - c_start) st (fun st c =>
      let acc2 := foldRange 0 mat_cols st.1 (fun acc k =>
        sliceMulAdd bs_mat (m_vec_limbs * st.2) (getN mat (c * mat_cols + k))
          acc (m_vec_limbs * (r * mat_cols + k)) m_vec_limbs)
      (acc2, st.2 + 1)))).1

/-- `mul_add_m_upper_triangular_mat_x_mat_trans`: same against the
transpose of the byte matrix. -/
def mul_add_m_upper_triangular_mat_x_mat_trans (m_vec_limbs : Nat)
    (bs_mat mat acc : List Nat) (bs_mat_rows bs_mat_cols mat_rows : Nat)
    (triangular : Bool) : List Nat :=
  (foldRange 0 bs_mat_rows ((acc, 0) : List Nat × Nat) (fun st r =>
    let c_start := if triangular then r else 0
    foldRange c_start (bs_mat_cols - c_start) st (fun st c =>
      let acc2 := foldRange 0 mat_rows st.1 (fun acc k =>
        sliceMulAdd bs_mat (m_vec_limbs * st.2) (getN mat (k * bs_mat_cols + c))
          acc (m_vec_limbs * (r * mat_rows + k)) m_vec_limbs)
      (acc2, st.2 + 1)))).1

/-- `mul_add_mat_trans_x_m_mat`: byte-matrix-transpose times bitsliced. -/
def mul_add_mat_trans_x_m_mat (m_vec_limbs : Nat) (mat bs_mat acc : List Nat)
    (mat_rows mat_cols bs_mat_cols : Nat) : List Nat :=
  foldRange 0 mat_cols acc (fun acc r =>
    foldRange 0 mat_rows acc (fun acc c =>
      foldRange 0 bs_mat_cols acc (fun acc k =>
        sliceMulAdd bs_mat (m_vec_limbs * (c * bs_mat_cols + k))
          (getN mat (c * mat_cols + r)) acc
          (m_vec_limbs * (r * bs_mat_cols + k)) m_vec_limbs)))

/-- `mul_add_mat_x_m_mat`: byte matrix times bitsliced matrices. -/
def mul_add_mat_x_m_mat (m_vec_limbs : Nat) (mat bs_mat acc : List Nat)
    (mat_rows mat_cols bs_mat_cols : Nat) : List Nat :=
  foldRange 0 mat_rows acc (fun acc r =>
    foldRange 0 mat_cols acc (fun acc c =>
      foldRange 0 bs_mat_cols acc (fun acc k =>
        sliceMulAdd bs_mat (m_vec_limbs * (c * bs_mat_cols + k))
          (getN mat (r * mat_cols + c)) acc
          (m_vec_limbs * (r * bs_mat_cols + k)) m_vec_limbs)))

/-- `p1_times_o`: `acc += P1 * O` (P1 upper-triangular). -/
def p1_times_o (p : MayoParams) (p1 o acc : List Nat) : List Nat :=
  mul_add_m_upper_triangular_mat_x_mat p.mVecLimbs p1 o acc p.V p.V p.O true

/-- `p1_times_vt`: `acc += P1 * V^t`. -/
def p1_times_vt (p : MayoParams) (p1 v acc : List Nat) : List Nat :=
  mul_add_m_upper_triangular_mat_x_mat_trans p.mVecLimbs p1 v acc p.V p.V p.K true

/-- `p1p1t_times_o`: `acc += (P1 + P1^t) * O`, skipping diagonal entries
and adding both `(r,c)` and `(c,r)` contributions. -/
def p1p1t_times_o (p : MayoParams) (p1 o acc : List Nat) : List Nat :=
  let m_vec_limbs := p.mVecLimbs
  let param_o := p.O
  let param_v := p.V
  (foldRange 0 param_v ((acc, 0) : List Nat × Nat) (fun st r =>
    foldRange r (param_v - r) st (fun st c =>
      if c = r then (st.1, st.2 + 1)
      else
        let acc2 := foldRange 0 param_o st.1 (fun acc k =>
          let acc := sliceMulAdd p1 (m_vec_limbs * st.2) (getN o (c * param_o + k))
            acc (m_vec_limbs * (r * param_o + k)) m_vec_limbs
          sliceMulAdd p1 (m_vec_limbs * st.2) (getN o (r * param_o + k))
            acc (m_vec_limbs * (c * param_o + k)) m_vec_limbs)
        (acc2, st.2 + 1)))).1

/-- `compute_m_and_vpv`: `VL = V*L` and `VP1V = V*P1*V^t`; returns the
pair `(vl, vp1v)`. -/
def compute_m_and_vpv (p : MayoParams) (vdec l p1 vl vp1v : List Nat) :
    List Nat × List Nat :=
  let m_vec_limbs := p.mVecLimbs
  let vl2 := mul_add_mat_x_m_mat m_vec_limbs vdec l vl p.K p.V p.O
  let pv := p1_times_vt p p1 vdec (List.replicate (p.V * p.K * m_vec_limbs) 0)
  let vp1v2 := mul_add_mat_x_m_mat m_vec_limbs vdec pv vp1v p.K p.V p.K
  (vl2, vp1v2)

/-- `compute_p3`: `P3 = O^t * (P1*O + P2)`; P2 is mutated in place to hold
the intermediate (returned value is P3). -/
def compute_p3 (p : MayoParams) (p1 p2 o p3 : List Nat) : List Nat :=
  let p2' := p1_times_o p p1 o p2
  mul_add_mat_trans_x_m_mat p.mVecLimbs o p2' p3 p.V p.O p.O

/-- `m_upper`: fold a square matrix of m-vectors into the
upper-triangular representation, `upper[r,c] = mat[r,c] + mat[c,r]`. -/
def m_upper (m_vec_limbs : Nat) (input output : List Nat) (size : Nat) : List Nat :=
  (foldRange 0 size ((output, 0) : List Nat × Nat) (fun st r =>
    foldRange r (size - r) st (fun st c =>
      let dst0 := (input.drop (m_vec_limbs * (r * size + c))).take m_vec_limbs
      let dst1 := if r = c then dst0 else
        foldRange 0 m_vec_limbs dst0 (fun d i =>
          setN d i (getN d i ^^^ getN input (m_vec_limbs * (c * size + r) + i)))
      (copySlice st.1 (m_vec_limbs * st.2) dst1, st.2 + 1)))).1

/-- `m_calculate_ps_sps`: build PS with 16-bucket accumulators dispatched
by nibbles of `s`, reduce with `m_vec_multiply_bins`, then build
SPS = S * PS the same way. -/
def m_calculate_ps_sps (p : MayoParams) (p1 p2 p3 s sps : List Nat) : List Nat :=
  let m := p.M
  let v := p.V
  let o := p.O
  let k := p.K
  let n := p.N
  let m_vec_limbs := p.mVecLimbs
  let ps0 : List Nat := List.replicate (n * k * m_vec_limbs) 0
  let acc_size := 16 * ((m + 15) / 16) * k * n
  let accumulator0 : List Nat := List.replicate acc_size 0
  let st1 := foldRange 0 v ((accumulator0, 0) : List Nat × Nat) (fun st row =>
    let st' := foldRange row (v - row) st (fun st j =>
      let acc2 := foldRange 0 k st.1 (fun acc col =>
        let bin_idx := ((row * k + col) * 16 + getN s (col * n + j)) * m_vec_limbs
        sliceAdd p1 (st.2 * m_vec_limbs) acc bin_idx m_vec_limbs)
      (acc2, st.2 + 1))
    let acc3 := foldRange 0 o st'.1 (fun acc j =>
      foldRange 0 k acc (fun acc col =>
        let bin_idx := ((row * k + col) * 16 + getN s (col * n + j + v)) * m_vec_limbs
        sliceAdd p2 ((row * o + j) * m_vec_limbs) acc bin_idx m_vec_limbs))
    (acc3, st'.2))
  let st2 := foldRange v (n - v) ((st1.1, 0) : List Nat × Nat) (fun st row =>
    foldRange row (n - row) st (fun st j =>
      let acc2 := foldRange 0 k st.1 (fun acc col =>
        let bin_idx := ((row * k + col) * 16 + getN s (col * n + j)) * m_vec_limbs
        sliceAdd p3 (st.2 * m_vec_limbs) acc bin_idx m_vec_limbs)
      (acc2, st.2 + 1)))
  let ps := foldRange 0 (n * k) ps0 (fun ps idx =>
    copySlice ps (idx * m_vec_limbs)
      (m_vec_multiply_bins (st2.1.drop (idx * 16 * m_vec_limbs)) m_vec_limbs))
  let sps_acc0 : List Nat := List.replicate (16 * ((m + 15) / 16) * k * k) 0
  let sps_acc := foldRange 0 k sps_acc0 (fun acc row =>
    foldRange 0 n acc (fun acc j =>
      foldRange 0 k acc (fun acc col =>
        let bin_idx := ((row * k + col) * 16 + getN s (row * n + j)) * m_vec_limbs
        sliceAdd ps ((j * k + col) * m_vec_limbs) acc bin_idx m_vec_limbs)))
  foldRange 0 (k * k) sps (fun sps idx =>
    copySlice sps (idx * m_vec_limbs)
      (m_vec_multiply_bins (sps_acc.drop (idx * 16 * m_vec_limbs)) m_vec_limbs))

/-! ### `src/keygen.rs` and `src/keypair.rs`: key derivation.  SHAKE256
and the AES-128-CTR keystream come from external crates (`sha3`, `aes`,
`ctr`), so they are abstracted as function parameters
`shake, aes : List Nat -> Nat -> List Nat` mapping (input bytes, output
length) to output bytes. -/

/-- `expand_p1_p2`: expand P1 and P2 from the public-key seed via the
AES-128-CTR keystream (abstracted `aes`, keyed by `seed_pk[..16]`),
then unpack into bitsliced limbs. -/
def expand_p1_p2 (p : MayoParams) (aes : List Nat → Nat → List Nat)
    (seed_pk : List Nat) : List Nat :=
  let total_bytes := p.p1Bytes + p.p2Bytes
  let total_limbs := p.p1Limbs + p.p2Limbs
  let num_vecs := total_limbs / p.mVecLimbs
  let raw := aes (seed_pk.take 16) total_bytes
  unpack_m_vecs raw (List.replicate total_limbs 0) num_vecs p.M

/-- `derive_cpk_from_csk`: derive the compact public key
`seed_pk || pack(Upper(P3))` from the compact secret key. -/
def derive_cpk_from_csk (p : MayoParams) (shake aes : List Nat → Nat → List Nat)
    (csk : List Nat) : List Nat :=
  let m_vec_limbs := p.mVecLimbs
  let seed_sk := csk.take p.skSeedBytes
  let s := shake seed_sk (p.pkSeedBytes + p.oBytes)
  let seed_pk := s.take p.pkSeedBytes
  let o := decode (s.drop p.pkSeedBytes) (p.V * p.O)
  let pp := expand_p1_p2 p aes seed_pk
  let p1 := pp.take p.p1Limbs
  let p2 := pp.drop p.p1Limbs
  let p3 := compute_p3 p p1 p2 o (List.replicate (p.O * p.O * m_vec_limbs) 0)
  let cpk0 := copySlice (List.replicate p.cpkBytes 0) 0 seed_pk
  let p3_upper := m_upper m_vec_limbs p3 (List.replicate p.p3Limbs 0) p.O
  copySlice cpk0 p.pkSeedBytes
    (pack_m_vecs p3_upper (List.replicate (p.cpkBytes - p.pkSeedBytes) 0)
      (p.p3Limbs / m_vec_limbs) p.M)

/-- `KeyPair::from_seed`: check the seed length, use the seed directly as
the compact secret key (zero-padded buffer of `CSK_BYTES`), derive the
compact public key, and load both through their `try_from` checks. -/
def keypair_from_seed (p : MayoParams) (shake aes : List Nat → Nat → List Nat)
    (seed : List Nat) : Except Error (List Nat × List Nat) :=
  if seed.length != p.skSeedBytes then
    .error (.InvalidSeedLength p.skSeedBytes seed.length)
  else
    let csk := copySlice (List.replicate p.cskBytes 0) 0 seed
    let cpk := derive_cpk_from_csk p shake aes csk
    do
      let sk ← signing_key_try_from p csk
      let vk ← verifying_key_try_from p cpk
      return (sk, vk)


/-! ### `src/verify.rs`: verification -/

/-- `compute_rhs_verify`: mask the m-vector tails, fold the 2k-degree
polynomial accumulator down with multiply-by-X steps and `f_tail`
reduction while adding the (symmetrized) vPv coefficients, then unpack
`y = t XOR temp`. -/
def compute_rhs_verify (p : MayoParams) (vpv t y : List Nat) : List Nat :=
  let m_vec_limbs := p.mVecLimbs
  let param_m := p.M
  let param_k := p.K
  let f_tail := p.fTail
  let top_pos := ((param_m - 1) % 16) * 4
  let vpv1 := if param_m % 16 != 0 then
      let mask := (1 <<< ((param_m % 16) * 4)) - 1
      foldRange 0 (param_k * param_k) vpv (fun v i =>
        setN v (i * m_vec_limbs + m_vec_limbs - 1)
          (getN v (i * m_vec_limbs + m_vec_limbs - 1) &&& mask))
    else vpv
  let temp := ((List.range param_k).reverse).foldl (fun temp i =>
    foldRange i (param_k - i) temp (fun temp j =>
      let top := (getN temp (m_vec_limbs - 1) >>> top_pos) % 16
      let temp := setN temp (m_vec_limbs - 1)
        ((getN temp (m_vec_limbs - 1) <<< 4) % 2 ^ 64)
      let temp := ((List.range (m_vec_limbs - 1)).reverse).foldl (fun temp k2 =>
        let temp := setN temp (k2 + 1) (getN temp (k2 + 1) ^^^ (getN temp k2 >>> 60))
        setN temp k2 ((getN temp k2 <<< 4) % 2 ^ 64)) temp
      let temp := foldRange 0 F_TAIL_LEN temp (fun temp jj =>
        let product := mul_f top (getN f_tail jj)
        let limb_idx := (jj / 2) / 8
        let byte_idx := (jj / 2) % 8
        if jj % 2 == 0 then
          setN temp limb_idx
            (getN temp limb_idx ^^^ ((product <<< (byte_idx * 8)) % 2 ^ 64))
        else
          setN temp limb_idx
            (getN temp limb_idx ^^^ ((product <<< (byte_idx * 8 + 4)) % 2 ^ 64)))
      let idx_ij := (i * param_k + j) * m_vec_limbs
      let idx_ji := (j * param_k + i) * m_vec_limbs
      foldRange 0 m_vec_limbs temp (fun temp k2 =>
        let sym := if i != j then getN vpv1 (idx_ji + k2) else 0
        setN temp k2 (getN temp k2 ^^^ (getN vpv1 (idx_ij + k2) ^^^ sym)))))
    (List.replicate m_vec_limbs 0)
  foldRange 0 ((param_m + 1) / 2) y (fun y p2 =>
    let i := 2 * p2
    let limb_idx := (i / 2) / 8
    let byte_idx := (i / 2) % 8
    let byte_val := (getN temp limb_idx >>> (byte_idx * 8)) &&& 0xFF
    let y2 := setN y i (getN t i ^^^ (byte_val &&& 0xF))
    if i + 1 < param_m then
      setN y2 (i + 1) (getN t (i + 1) ^^^ (byte_val >>> 4))
    else y2)

/-- `eval_public_map`: SPS from `s` and P1, P2, P3, then the f-reduction
with an all-zero `t`. -/
def eval_public_map (p : MayoParams) (s p1 p2 p3 eval : List Nat) : List Nat :=
  let sps := m_calculate_ps_sps p p1 p2 p3 s
    (List.replicate (p.K * p.K * p.mVecLimbs) 0)
  compute_rhs_verify p sps (List.replicate p.M 0) eval

/-- The deterministic pipeline of `mayo_verify` up to (but excluding) the
final comparison: returns the pair `(t, y)` that `mayo_verify` compares.
SHAKE256 is abstracted as `shake`, the AES-CTR keystream as `aes`. -/
def mayo_verify_core (p : MayoParams) (shake aes : List Nat → Nat → List Nat)
    (msg sig cpk : List Nat) : List Nat × List Nat :=
  let pk := expand_p1_p2 p aes (cpk.take p.pkSeedBytes)
  let p3 := unpack_m_vecs (cpk.drop p.pkSeedBytes)
    (List.replicate p.p3Limbs 0) (p.p3Limbs / p.mVecLimbs) p.M
  let p1 := pk.take p.p1Limbs
  let p2 := (pk.drop p.p1Limbs).take p.p2Limbs
  let digest := shake msg p.digestBytes
  let salt := (sig.drop (p.sigBytes - p.saltBytes)).take p.saltBytes
  let tenc := shake (digest ++ salt) p.mBytes
  let t := decode tenc p.M
  let s := decode sig (p.K * p.N)
  let y := eval_public_map p s p1 p2 p3 (List.replicate (2 * p.M) 0)
  (t, y)

/-- `mayo_verify`: recompute `t` and the public-map evaluation `y`, then
return `Ok(())` exactly when `y[..m] == t[..m]`, and
`Err(VerificationFailed)` otherwise. -/
def mayo_verify (p : MayoParams) (shake aes : List Nat → Nat → List Nat)
    (msg sig cpk : List Nat) : Except Error Unit :=
  let ty := mayo_verify_core p shake aes msg sig cpk
  if ty.2.take p.M = ty.1.take p.M then .ok () else .error .VerificationFailed


/-! ### `src/sign.rs`: signing -/

/-- `expand_sk`: expand the compact secret key into `(P1 || L, O)` where
`L = (P1 + P1^t)*O + P2` replaces P2 in the limb buffer. -/
def expand_sk (p : MayoParams) (shake aes : List Nat → Nat → List Nat)
    (csk : List Nat) : List Nat × List Nat :=
  let seed_sk := csk.take p.skSeedBytes
  let s := shake seed_sk (p.pkSeedBytes + p.oBytes)
  let seed_pk := s.take p.pkSeedBytes
  let o := decode (s.drop p.pkSeedBytes) (p.V * p.O)
  let pp := expand_p1_p2 p aes seed_pk
  let p1 := pp.take p.p1Limbs
  let l := p1p1t_times_o p p1 o (pp.drop p.p1Limbs)
  (p1 ++ l, o)

/-- `transpose_16x16_nibbles`: transpose a 16x16 nibble matrix held in 16
u64 limbs by the four staged XOR-mask swaps. -/
def transpose_16x16_nibbles (m : List Nat) : List Nat :=
  let even_nibbles : Nat := 0x0f0f0f0f0f0f0f0f
  let even_bytes : Nat := 0x00ff00ff00ff00ff
  let even_2bytes : Nat := 0x0000ffff0000ffff
  let even_half : Nat := 0x00000000ffffffff
  let m1 := foldRange 0 8 m (fun m q =>
    let i := 2 * q
    let t := ((getN m i >>> 4) ^^^ getN m (i + 1)) &&& even_nibbles
    let m := setN m i (getN m i ^^^ ((t <<< 4) % 2 ^ 64))
    setN m (i + 1) (getN m (i + 1) ^^^ t))
  let m2 := foldRange 0 4 m1 (fun m q =>
    let i := 4 * q
    let t0 := ((getN m i >>> 8) ^^^ getN m (i + 2)) &&& even_bytes
    let t1 := ((getN m (i + 1) >>> 8) ^^^ getN m (i + 3)) &&& even_bytes
    let m := setN m i (getN m i ^^^ ((t0 <<< 8) % 2 ^ 64))
    let m := setN m (i + 1) (getN m (i + 1) ^^^ ((t1 <<< 8) % 2 ^ 64))
    let m := setN m (i + 2) (getN m (i + 2) ^^^ t0)
    setN m (i + 3) (getN m (i + 3) ^^^ t1))
  let m3 := foldRange 0 4 m2 (fun m i =>
    let t0 := ((getN m i >>> 16) ^^^ getN m (i + 4)) &&& even_2bytes
    let t1 := ((getN m (i + 8) >>> 16) ^^^ getN m (i + 12)) &&& even_2bytes
    let m := setN m i (getN m i ^^^ ((t0 <<< 16) % 2 ^ 64))
    let m := setN m (i + 8) (getN m (i + 8) ^^^ ((t1 <<< 16) % 2 ^ 64))
    let m := setN m (i + 4) (getN m (i + 4) ^^^ t0)
    setN m (i + 12) (getN m (i + 12) ^^^ t1))
  foldRange 0 8 m3 (fun m i =>
    let t := ((getN m i >>> 32) ^^^ getN m (i + 8)) &&& even_half
    let m := setN m i (getN m i ^^^ ((t <<< 32) % 2 ^ 64))
    setN m (i + 8) (getN m (i + 8) ^^^ t))

/-- `compute_rhs` of `src/sign.rs`: textually the same algorithm as
`compute_rhs_verify` (the two source copies compute identically). -/
def compute_rhs (p : MayoParams) (vpv t y : List Nat) : List Nat :=
  compute_rhs_verify p vpv t y

/-- `decode_packed_nibbles` applied to the little-endian bytes of one u64
(`a[src_pos].to_le_bytes()`): writing `len ≤ 16` nibbles, low nibble of
byte 0 first, is writing nibble `idx` of the limb for `idx < len`. -/
def decode_packed_nibbles_u64 (out : List Nat) (off : Nat) (limb len : Nat) :
    List Nat :=
  foldRange 0 len out (fun out idx =>
    setN out (off + idx) ((limb >>> (4 * idx)) &&& 0xf))

/-- `compute_a`: assemble the linearized system matrix A from the M
matrices: shift-insert each M block into the packed accumulator,
transpose 16x16 nibble slabs, reduce the overflow rows mod f, and unpack
into `a_out`. -/
def compute_a (p : MayoParams) (vtl a_out : List Nat) : List Nat :=
  let m_vec_limbs := p.mVecLimbs
  let param_m := p.M
  let param_o := p.O
  let param_k := p.K
  let a_cols := p.aCols
  let f_tail := p.fTail
  let m_over_8 := (param_m + 7) / 8
  let a_width := ((param_o * param_k + 15) / 16) * 16
  let a_total := a_width * m_over_8
  let a0 : List Nat := List.replicate a_total 0
  let vtl1 := if param_m % 16 != 0 then
      let mask := (1 <<< ((param_m % 16) * 4)) - 1
      foldRange 0 (param_o * param_k) vtl (fun v i =>
        setN v (i * m_vec_limbs + m_vec_limbs - 1)
          (getN v (i * m_vec_limbs + m_vec_limbs - 1) &&& mask))
    else vtl
  let st := foldRange 0 param_k ((a0, 0, 0) : List Nat × Nat × Nat) (fun st i =>
    ((List.range' i (param_k - i)).reverse).foldl (fun st j =>
      let bits_to_shift := st.2.1
      let words_to_shift := st.2.2
      let mj_base := j * m_vec_limbs * param_o
      let a := foldRange 0 param_o st.1 (fun a c =>
        foldRange 0 m_vec_limbs a (fun a k =>
          let src := getN vtl1 (mj_base + k + c * m_vec_limbs)
          let dst_idx := param_o * i + c + (k + words_to_shift) * a_width
          let a := if dst_idx < a_total then
              setN a dst_idx (getN a dst_idx ^^^ ((src <<< bits_to_shift) % 2 ^ 64))
            else a
          if bits_to_shift > 0 then
            let dst_idx2 := param_o * i + c + (k + words_to_shift + 1) * a_width
            if dst_idx2 < a_total then
              setN a dst_idx2 (getN a dst_idx2 ^^^ (src >>> (64 - bits_to_shift)))
            else a
          else a))
      let a := if i != j then
          let mi_base := i * m_vec_limbs * param_o
          foldRange 0 param_o a (fun a c =>
            foldRange 0 m_vec_limbs a (fun a k =>
              let src := getN vtl1 (mi_base + k + c * m_vec_limbs)
              let dst_idx := param_o * j + c + (k + words_to_shift) * a_width
              let a := if dst_idx < a_total then
                  setN a dst_idx (getN a dst_idx ^^^ ((src <<< bits_to_shift) % 2 ^ 64))
                else a
              if bits_to_shift > 0 then
                let dst_idx2 := param_o * j + c + (k + words_to_shift + 1) * a_width
                if dst_idx2 < a_total then
                  setN a dst_idx2 (getN a dst_idx2 ^^^ (src >>> (64 - bits_to_shift)))
                else a
              else a))
        else a
      let bits := bits_to_shift + 4
      if bits == 64 then (a, 0, words_to_shift + 1) else (a, bits, words_to_shift)) st)
  let a1 := st.1
  let total_transpose := a_width * ((param_m + (param_k + 1) * param_k / 2 + 15) / 16)
  let a2 := foldRange 0 ((total_transpose + 15) / 16) a1 (fun a cidx =>
    let c := 16 * cidx
    if c + 16 ≤ a.length then
      copySlice a c (transpose_16x16_nibbles ((a.drop c).take 16))
    else a)
  let tab := foldRange 0 F_TAIL_LEN (List.replicate (F_TAIL_LEN * 4) 0) (fun t i =>
    let t := setN t (4 * i) (mul_f (getN f_tail i) 1)
    let t := setN t (4 * i + 1) (mul_f (getN f_tail i) 2)
    let t := setN t (4 * i + 2) (mul_f (getN f_tail i) 4)
    setN t (4 * i + 3) (mul_f (getN f_tail i) 8))
  let low_bit_in_nibble : Nat := 0x1111111111111111
  let a3 := foldRange 0 ((a_width + 15) / 16) a2 (fun a cidx =>
    let c := 16 * cidx
    foldRange param_m ((param_k + 1) * param_k / 2) a (fun a r =>
      let pos := (r / 16) * a_width + c + (r % 16)
      if pos < a.length then
        let val := getN a pos
        let t0 := val &&& low_bit_in_nibble
        let t1 := (val >>> 1) &&& low_bit_in_nibble
        let t2 := (val >>> 2) &&& low_bit_in_nibble
        let t3 := (val >>> 3) &&& low_bit_in_nibble
        foldRange 0 F_TAIL_LEN a (fun a t =>
          let target_r := r + t - param_m
          let target_pos := (target_r / 16) * a_width + c + (target_r % 16)
          if target_pos < a.length then
            setN a target_pos (getN a target_pos ^^^
              (((t0 * getN tab (4 * t)) % 2 ^ 64) ^^^
               ((t1 * getN tab (4 * t + 1)) % 2 ^ 64) ^^^
               ((t2 * getN tab (4 * t + 2)) % 2 ^ 64) ^^^
               ((t3 * getN tab (4 * t + 3)) % 2 ^ 64)))
          else a)
      else a))
  foldRange 0 ((param_m + 15) / 16) a_out (fun out ridx =>
    let r := 16 * ridx
    foldRange 0 ((a_cols - 1 + 15) / 16) out (fun out cidx =>
      let c := 16 * cidx
      foldRange 0 16 out (fun out i =>
        if r + i < param_m then
          let src_pos := r * a_width / 16 + c + i
          let decode_len := min 16 (a_cols - 1 - c)
          if src_pos < a3.length then
            decode_packed_nibbles_u64 out ((r + i) * a_cols + c)
              (getN a3 src_pos) decode_len
          else out
        else out)))

/-- The pre-loop context of `mayo_sign_signature`: expanded key material,
the hashed message buffer `tmp` (digest || salt || seed_sk || ctr slot),
the target vector `t` and the salt. -/
structure SignPrelude where
  pAll : List Nat
  oMat : List Nat
  tmp : List Nat
  t : List Nat
  salt : List Nat

/-- Lines 350-392 of `src/sign.rs`: expand the secret key, hash the
message, draw the salt randomizer from the RNG (`rand`), derive
`salt = SHAKE256(digest || rand || seed_sk)` and
`t = decode(SHAKE256(digest || salt))`. -/
def sign_prelude (p : MayoParams) (shake aes : List Nat → Nat → List Nat)
    (rand msg csk : List Nat) : SignPrelude :=
  let po := expand_sk p shake aes csk
  let seed_sk := csk.take p.skSeedBytes
  let tmp0 : List Nat :=
    List.replicate (p.digestBytes + p.saltBytes + p.skSeedBytes + 1) 0
  let tmp1 := copySlice tmp0 0 (shake msg p.digestBytes)
  let tmp2 := copySlice tmp1 p.digestBytes (rand.take p.saltBytes)
  let tmp3 := copySlice tmp2 (p.digestBytes + p.saltBytes) seed_sk
  let salt := shake (tmp3.take (p.digestBytes + p.saltBytes + p.skSeedBytes))
    p.saltBytes
  let tmp4 := copySlice tmp3 p.digestBytes salt
  let tenc := shake (tmp4.take (p.digestBytes + p.saltBytes)) p.mBytes
  let t := decode tenc p.M
  ⟨po.1, po.2, tmp4, t, salt⟩

/-- One `ctr` iteration of the signing attempt loop (lines 399-461 of
`src/sign.rs`): derive V and r from SHAKE256 with the ctr byte set,
decode the vinegar vectors, build the linearized system and call
`sample_solution`.  Returns the success flag and the updated `x`,
`vdec`. -/
def sign_attempt (p : MayoParams) (shake : List Nat → Nat → List Nat)
    (pAll tmp t x vdec : List Nat) (ctr : Nat) : Bool × List Nat × List Nat :=
  let ctrbyte_offset := p.digestBytes + p.saltBytes + p.skSeedBytes
  let tmp2 := setN tmp ctrbyte_offset ctr
  let v_and_r := shake (tmp2.take (ctrbyte_offset + 1))
    (p.K * p.vBytes + p.rBytes)
  let vdec2 := foldRange 0 p.K vdec (fun vd i =>
    copySlice vd (i * p.V) (decode (v_and_r.drop (i * p.vBytes)) p.V))
  let m_vec_limbs := p.mVecLimbs
  let p1 := pAll.take p.p1Limbs
  let l := pAll.drop p.p1Limbs
  let mv := compute_m_and_vpv p vdec2 l p1
    (List.replicate (p.K * p.O * m_vec_limbs) 0)
    (List.replicate (p.K * p.K * m_vec_limbs) 0)
  let y := compute_rhs p mv.2 t (List.replicate p.M 0)
  let a_row_size := ((p.M + 7) / 8) * 8
  let a_matrix0 : List Nat := List.replicate (a_row_size * p.aCols) 0
  let a_matrix1 := compute_a p mv.1 a_matrix0
  let a_matrix2 := foldRange 0 p.M a_matrix1 (fun a i =>
    setN a ((1 + i) * p.aCols - 1) 0)
  let r := copySlice (List.replicate (p.K * p.O + 1) 0) 0
    (decode (v_and_r.drop (p.K * p.vBytes)) (p.K * p.O))
  let res := sample_solution a_matrix2 y r x p.K p.O p.M p.aCols
  (res.1, res.2, vdec2)

/-- `mayo_sign_signature`: the full signing routine.  Returns the byte
buffer written into `sig` together with the `Result` value.  Note the
source's ctr loop simply breaks on success; after the loop the signature
is always assembled and `Ok(SIG_BYTES)` returned. -/
def mayo_sign_signature (p : MayoParams) (shake aes : List Nat → Nat → List Nat)
    (rand msg csk : List Nat) : List Nat × Except Error Nat :=
  let sp := sign_prelude p shake aes rand msg csk
  let x0 : List Nat := List.replicate (p.K * p.N) 0
  let vdec0 : List Nat := List.replicate (p.V * p.K) 0
  let st := foldRange 0 256 ((false, x0, vdec0) : Bool × List Nat × List Nat)
    (fun st ctr =>
      if st.1 then st
      else sign_attempt p shake sp.pAll sp.tmp sp.t st.2.1 st.2.2 ctr)
  let x := st.2.1
  let vdec := st.2.2
  let s := foldRange 0 p.K (List.replicate (p.K * p.N) 0) (fun s i =>
    let vi := (vdec.drop (i * p.V)).take p.V
    let xi := (x.drop (i * p.O)).take p.O
    let ox := mat_mul sp.oMat xi (List.replicate p.V 0) p.O p.V 1
    let s1 := copySlice s (i * p.N)
      (mat_add vi ox ((s.drop (i * p.N)).take p.V) p.V 1)
    copySlice s1 (i * p.N + p.V) ((x.drop (i * p.O)).take p.O))
  let sigbuf := copySlice (List.replicate p.sigBytes 0) 0 (encode s (p.N * p.K))
  let sigbuf2 := copySlice sigbuf (p.sigBytes - p.saltBytes) sp.salt
  (sigbuf2, .ok p.sigBytes)

/-- A minimal toy parameter set (n=2, m=2, o=1, k=1, all byte lengths
consistent with the derivation rules of `params.rs`), used to exhibit
control-flow behaviour of signing on feasibly evaluable sizes. -/
def mayoToy : MayoParams :=
  { N := 2, M := 2, O := 1, K := 1, mVecLimbs := 1,
    mBytes := 1, oBytes := 1, vBytes := 1, rBytes := 1,
    p1Bytes := 1, p2Bytes := 1, p3Bytes := 1,
    cskBytes := 2, cpkBytes := 2, sigBytes := 2,
    saltBytes := 1, digestBytes := 1,
    pkSeedBytes := 1, skSeedBytes := 2,
    fTail := [1, 1, 1, 1] }

/-- The all-zero XOF model: every requested output is a zero byte string
(used as a concrete instantiation of the abstracted SHAKE256/AES-CTR). -/
def zeroXof : List Nat → Nat → List Nat := fun _ len => List.replicate len 0

/-! ### Theorems -/

theorem land15_eq_of_lt {a : Nat} (h : a < 16) : a &&& 15 = a := by
  have : ∀ a : Nat, a < 16 → a &&& 15 = a := by decide
  exact this a h

theorem nibble_pair_low (a b : Nat) (ha : a < 16) (hb : b < 16) :
    (a ||| ((b <<< 4) % 256)) &&& 0x0f = a := by
  have : ∀ a : Nat, a < 16 → ∀ b : Nat, b < 16 →
      (a ||| ((b <<< 4) % 256)) &&& 0x0f = a := by decide
  exact this a ha b hb

theorem nibble_pair_high (a b : Nat) (ha : a < 16) (hb : b < 16) :
    (a ||| ((b <<< 4) % 256)) >>> 4 = b := by
  have : ∀ a : Nat, a < 16 → ∀ b : Nat, b < 16 →
      (a ||| ((b <<< 4) % 256)) >>> 4 = b := by decide
  exact this a ha b hb

set_option maxRecDepth 4096 in
theorem byte_recompose (x : Nat) (hx : x < 256) :
    (x &&& 0x0f) ||| (((x >>> 4) <<< 4) % 256) = x := by
  have : ∀ x : Nat, x < 256 → (x &&& 0x0f) ||| (((x >>> 4) <<< 4) % 256) = x := by
    decide
  exact this x hx

theorem decode_encode_id : ∀ (ys : List Nat), (∀ y ∈ ys, y < 16) →
    decode (encode ys ys.length) ys.length = ys
  | [], _ => rfl
  | [a], h => by
      have ha : a < 16 := h a (by simp)
      show decode (encode [a] 1) 1 = [a]
      simp [encode, decode, land15_eq_of_lt ha]
  | a :: b :: rest, h => by
      have ha : a < 16 := h a (by simp)
      have hb : b < 16 := h b (by simp)
      have ih := decode_encode_id rest (fun y hy => h y (by simp [hy]))
      show decode (encode (a :: b :: rest) (rest.length + 2)) (rest.length + 2) =
        a :: b :: rest
      rw [encode, decode, ih, nibble_pair_low a b ha hb, nibble_pair_high a b ha hb]

theorem encode_decode_id : ∀ (xs : List Nat) (n : Nat),
    xs.length = (n + 1) / 2 → (∀ x ∈ xs, x < 256) →
    (n % 2 = 1 → getN xs (n / 2) < 16) →
    encode (decode xs n) n = xs
  | [], n, hlen, _, _ => by
      have hn : n = 0 := by
        simp at hlen; omega
      subst hn; rfl
  | [x], n, hlen, hx, hodd => by
      have hx' : x < 256 := hx x (by simp)
      have hn : n = 1 ∨ n = 2 := by
        simp at hlen; omega
      rcases hn with hn | hn
      · subst hn
        have hlow : x < 16 := by simpa [getN] using hodd rfl
        show encode (decode [x] 1) 1 = [x]
        simp [decode, encode, land15_eq_of_lt hlow]
      · subst hn
        show encode (decode [x] 2) 2 = [x]
        simp [decode, encode, byte_recompose x hx']
  | x :: y :: rest, n, hlen, hx, hodd => by
      have hx' : x < 256 := hx x (by simp)
      have hn : ∃ m, n = m + 2 := by
        refine ⟨n - 2, ?_⟩
        simp [List.length] at hlen
        omega
      obtain ⟨m, rfl⟩ := hn
      have hlen' : (y :: rest).length = (m + 1) / 2 := by
        simp [List.length] at hlen ⊢
        omega
      have ih := encode_decode_id (y :: rest) m hlen'
        (fun z hz => hx z (by simp at hz ⊢; tauto))
        (by
          intro hm
          have := hodd (by omega)
          have hidx : (m + 2) / 2 = m / 2 + 1 := by omega
          simpa [getN, hidx] using this)
      show encode (decode (x :: y :: rest) (m + 2)) (m + 2) = x :: y :: rest
      rw [decode, encode, ih, byte_recompose x hx']

/-- C7 (amended): `decode ∘ encode` is the identity on GF(16)-element
arrays; `encode ∘ decode` is the identity on well-sized packed byte
arrays provided that, when `n` is odd, the unused high nibble of the
final byte is zero. -/
theorem C7_codec_roundtrip :
    (∀ ys : List Nat, (∀ y ∈ ys, y < 16) →
      decode (encode ys ys.length) ys.length = ys) ∧
    (∀ (xs : List Nat) (n : Nat), xs.length = (n + 1) / 2 →
      (∀ x ∈ xs, x < 256) → (n % 2 = 1 → getN xs (n / 2) < 16) →
      encode (decode xs n) n = xs) :=
  ⟨decode_encode_id, encode_decode_id⟩

/-- C7 counterexample: the packed array `[0x10]` is well-sized for `n = 1`
(`⌈1/2⌉ = 1` byte) but `encode (decode [0x10] 1) 1 = [0x00] ≠ [0x10]`:
the claim as stated fails because `decode` drops the unused high nibble. -/
theorem C7_counterexample : encode (decode [0x10] 1) 1 ≠ [0x10] := by decide

theorem C7_witness :
    decode (encode [3, 7, 5] ([3, 7, 5] : List Nat).length)
        ([3, 7, 5] : List Nat).length = [3, 7, 5] ∧
    encode (decode [0x25, 0x07] 3) 3 = [0x25, 0x07] :=
  ⟨C7_codec_roundtrip.1 [3, 7, 5] (by decide),
   C7_codec_roundtrip.2 [0x25, 0x07] 3 rfl (by decide) (by decide)⟩

/-- C6: for every nonzero GF(16) element `a`, `mul_f a (inverse_f a) = 1`,
where `inverse_f` computes `a^14` by the square chain and `mul_f` is
multiplication modulo `x^4 + x + 1`. -/
theorem C6_inverse_correct : ∀ a : Nat, a < 16 → 0 < a →
    mul_f a (inverse_f a) = 1 := by decide

theorem C6_witness : mul_f 3 (inverse_f 3) = 1 :=
  C6_inverse_correct 3 (by decide) (by decide)

/-- C8 counterexample: at `b = 15` the second byte of `mul_table 15` is
`0x1d = 29`, not `mul_f 15 2 = 13`: the reduction in `mul_table` leaves
residue bits above the low nibble, so the claim that the four bytes are
exactly `mul(b,1), mul(b,2), mul(b,4), mul(b,8)` is false. -/
theorem C8_counterexample : ((mul_table 15 >>> 8) &&& 0xff) ≠ mul_f 15 2 := by
  decide

/-- C8 (amended): for every GF(16) scalar `b < 16` the least significant
byte of `mul_table b` is exactly `mul_f b 1`, and the low nibbles of the
remaining three bytes are `mul_f b 2`, `mul_f b 4` and `mul_f b 8`
(the bitsliced MAC masks the upper bytes with `0xf` before use). -/
theorem C8_mul_table_bytes : ∀ b : Nat, b < 16 →
    (mul_table b &&& 0xff = mul_f b 1 ∧
     (mul_table b >>> 8) &&& 0xf = mul_f b 2 ∧
     (mul_table b >>> 16) &&& 0xf = mul_f b 4 ∧
     (mul_table b >>> 24) &&& 0xf = mul_f b 8) := by decide

theorem C8_witness :
    mul_table 15 &&& 0xff = mul_f 15 1 ∧
    (mul_table 15 >>> 8) &&& 0xf = mul_f 15 2 ∧
    (mul_table 15 >>> 16) &&& 0xf = mul_f 15 4 ∧
    (mul_table 15 >>> 24) &&& 0xf = mul_f 15 8 :=
  C8_mul_table_bytes 15 (by decide)

theorem decode_all_lt : ∀ (input : List Nat) (len : Nat),
    (∀ b ∈ input, b < 256) → ∀ y ∈ decode input len, y < 16
  | _, 0, _ => by simp [decode]
  | [], _ + 1, _ => by simp [decode]
  | b :: _, 1, hin => by
      intro y hy
      simp [decode] at hy
      subst hy
      have : b &&& 15 ≤ 15 := Nat.and_le_right
      omega
  | b :: rest, n + 2, hin => by
      intro y hy
      have hb : b < 256 := hin b (by simp)
      simp only [decode, List.mem_cons] at hy
      rcases hy with hy | hy | hy
      · subst hy
        have : b &&& 15 ≤ 15 := Nat.and_le_right
        omega
      · subst hy
        have : b >>> 4 = b / 16 := by
          simp [Nat.shiftRight_eq_div_pow]
        omega
      · exact decode_all_lt rest n (fun z hz => hin z (by simp [hz])) y hy

/-- C10: every element written by `decode` is a valid GF(16) element
(strictly less than 16), for any `u8` input bytes and any length. -/
theorem C10_decode_lt : ∀ (input : List Nat) (len : Nat),
    (∀ b ∈ input, b < 256) → ∀ y ∈ decode input len, y < 16 :=
  decode_all_lt

theorem C10_witness : getN (decode [171, 205] 3) 1 < 16 :=
  C10_decode_lt [171, 205] 3 (by decide) (getN (decode [171, 205] 3) 1) (by decide)

/-- C4: the claim fails on the code.  `ef` leaves the matrix
`[[0,0,1],[0,0,1],[0,0,0]]` (3 x 3, `nrows <= ncols`) completely
unchanged: rows 0 and 1 share the leading column 2, so the entry below
row 0's pivot is 1 — the output is not in row echelon form at all, which
contradicts both the claim and the function's own documentation
("Put matrix in row echelon form with leading ones").  Moreover, even on
well-behaved inputs `ef` never eliminates entries ABOVE a pivot:
`[[1,1],[1,0]]` becomes `[[1,1],[0,1]]`, which is row echelon but not
reduced (that part of the claim is a specification overstatement; the
elimination above pivots happens later, in `sample_solution`'s back
substitution). -/
theorem C4_ef_not_rref :
    ef [0, 0, 1, 0, 0, 1, 0, 0, 0] 3 3 = [0, 0, 1, 0, 0, 1, 0, 0, 0] ∧
    spec_below_pivots_zero (ef [0, 0, 1, 0, 0, 1, 0, 0, 0] 3 3) 3 3 = false ∧
    spec_rref (ef [0, 0, 1, 0, 0, 1, 0, 0, 0] 3 3) 3 3 = false ∧
    ef [1, 1, 1, 0] 2 2 = [1, 1, 0, 1] ∧
    spec_rref (ef [1, 1, 1, 0] 2 2) 2 2 = false := by
  refine ⟨by decide, by decide, by decide, by decide, by decide⟩

/-- C9: loading a signature or key fails with the corresponding length
error exactly when the input length differs from the parameter set's
prescribed length, and on success the stored bytes equal the input. -/
theorem C9_try_from_lengths (p : MayoParams) (bytes : List Nat) :
    (signature_try_from p bytes =
        .error (.InvalidSignatureLength p.sigBytes bytes.length) ↔
      bytes.length ≠ p.sigBytes) ∧
    (verifying_key_try_from p bytes =
        .error (.InvalidKeyLength p.cpkBytes bytes.length) ↔
      bytes.length ≠ p.cpkBytes) ∧
    (signing_key_try_from p bytes =
        .error (.InvalidKeyLength p.cskBytes bytes.length) ↔
      bytes.length ≠ p.cskBytes) ∧
    (bytes.length = p.sigBytes → signature_try_from p bytes = .ok bytes) ∧
    (bytes.length = p.cpkBytes → verifying_key_try_from p bytes = .ok bytes) ∧
    (bytes.length = p.cskBytes → signing_key_try_from p bytes = .ok bytes) := by
  refine ⟨?_, ?_, ?_, ?_, ?_, ?_⟩ <;>
    by_cases h : bytes.length = p.sigBytes <;>
      simp [signature_try_from, verifying_key_try_from, signing_key_try_from, h]

set_option maxRecDepth 8192 in
theorem C9_witness :
    signature_try_from mayo1 (List.replicate 454 0) =
        .ok (List.replicate 454 0) ∧
    (signature_try_from mayo1 [0] =
        .error (.InvalidSignatureLength mayo1.sigBytes 1) ↔ (1 : Nat) ≠ mayo1.sigBytes) :=
  ⟨(C9_try_from_lengths mayo1 (List.replicate 454 0)).2.2.2.1 (by simp [mayo1]),
   by
    have h := (C9_try_from_lengths mayo1 [0]).1
    simpa using h⟩

theorem getN_setN (xs : List Nat) (k v i : Nat) :
    getN (setN xs k v) i = if k = i ∧ k < xs.length then v else getN xs i := by
  by_cases hk : k = i
  · subst hk
    by_cases hl : k < xs.length
    · simp [getN, setN, List.getElem?_set_self hl, hl]
    · simp only [getN, setN, List.getD_eq_getElem?_getD, List.getElem?_set_self']
      simp [hl, List.getElem?_eq_none (by omega : xs.length ≤ k)]
  · simp [getN, setN, List.getElem?_set_ne hk, hk]

theorem foldRange_set_length (g : Nat → Nat → Nat) :
    ∀ (n : Nat) (xs : List Nat),
      (foldRange 0 n xs (fun s k => setN s k (g k (getN s k)))).length = xs.length := by
  intro n
  induction n with
  | zero => intro xs; rfl
  | succ n ih =>
    intro xs
    rw [foldRange, List.range'_1_concat, List.foldl_append]
    simp only [List.foldl_cons, List.foldl_nil, Nat.zero_add]
    rw [setN, List.length_set]
    exact ih xs

theorem foldRange_set_getN (g : Nat → Nat → Nat) :
    ∀ (n : Nat) (xs : List Nat) (i : Nat),
      getN (foldRange 0 n xs (fun s k => setN s k (g k (getN s k)))) i =
        if i < n ∧ i < xs.length then g i (getN xs i) else getN xs i := by
  intro n
  induction n with
  | zero => intro xs i; simp [foldRange]
  | succ n ih =>
    intro xs i
    rw [foldRange, List.range'_1_concat, List.foldl_append]
    simp only [List.foldl_cons, List.foldl_nil, Nat.zero_add]
    have hfold : (List.range' 0 n).foldl (fun s k => setN s k (g k (getN s k))) xs =
        foldRange 0 n xs (fun s k => setN s k (g k (getN s k))) := rfl
    rw [hfold, getN_setN, foldRange_set_length]
    rcases Nat.lt_trichotomy i n with hi | hi | hi
    · rw [if_neg (by omega : ¬(n = i ∧ n < xs.length))]
      rw [ih xs i]
      by_cases h2 : i < xs.length
      · rw [if_pos ⟨hi, h2⟩, if_pos ⟨by omega, h2⟩]
      · rw [if_neg (by tauto), if_neg (by tauto)]
    · cases hi
      by_cases h2 : n < xs.length
      · rw [if_pos ⟨rfl, h2⟩, ih xs n,
          if_neg (by omega : ¬(n < n ∧ n < xs.length)),
          if_pos ⟨by omega, h2⟩]
      · rw [if_neg (by tauto), ih xs n, if_neg (by tauto), if_neg (by tauto)]
    · rw [if_neg (by omega : ¬(n = i ∧ n < xs.length))]
      rw [ih xs i]
      rw [if_neg (by omega : ¬(i < n ∧ i < xs.length)),
        if_neg (by omega : ¬(i < n + 1 ∧ i < xs.length))]

theorem testBit_15 (j : Nat) : Nat.testBit 15 j = decide (j < 4) := by
  rw [show (15 : Nat) = 2 ^ 4 - 1 by norm_num]
  exact Nat.testBit_two_pow_sub_one 4 j

theorem testBit_1 (j : Nat) : Nat.testBit 1 j = decide (j < 1) := by
  rw [show (1 : Nat) = 2 ^ 1 - 1 by norm_num]
  exact Nat.testBit_two_pow_sub_one 1 j

theorem and_digit_split (z m d : Nat) (hd : d < 16) :
    z &&& (d + 16 * m) = ((z &&& 15) &&& d) + 16 * ((z >>> 4) &&& m) := by
  have hb : (z &&& 15) &&& d < 2 ^ 4 := by
    have : (z &&& 15) &&& d ≤ d := Nat.and_le_right
    omega
  apply Nat.eq_of_testBit_eq
  intro j
  rw [show d + 16 * m = 2 ^ 4 * m + d by ring,
    show ((z &&& 15) &&& d) + 16 * ((z >>> 4) &&& m) =
      2 ^ 4 * ((z >>> 4) &&& m) + ((z &&& 15) &&& d) by ring,
    Nat.testBit_and, Nat.testBit_mul_pow_two_add _ (by omega : d < 2 ^ 4),
    Nat.testBit_mul_pow_two_add _ hb]
  by_cases hj : j < 4
  · simp [hj, Nat.testBit_and, testBit_15]
  · have h4 : 4 + (j - 4) = j := by omega
    simp [hj, Nat.testBit_and, Nat.testBit_shiftRight, h4]

theorem and_mask_nibs : ∀ (n : Nat) (z : Nat),
    z &&& nibs2nat (List.replicate n 1) =
      nibs2nat ((List.range n).map (fun j => (z >>> (4 * j)) &&& 1)) := by
  intro n
  induction n with
  | zero => intro z; simp [nibs2nat]
  | succ n ih =>
    intro z
    rw [List.replicate_succ, show nibs2nat (1 :: List.replicate n 1) =
        1 + 16 * nibs2nat (List.replicate n 1) from rfl,
      and_digit_split z _ 1 (by norm_num), Nat.and_assoc,
      show (15 : Nat) &&& 1 = 1 by decide,
      List.range_succ_eq_map, List.map_cons, List.map_map]
    have h0 : (z >>> (4 * 0)) &&& 1 = z &&& 1 := by
      simp
    rw [show nibs2nat (((z >>> (4 * 0)) &&& 1) ::
        List.map ((fun j => (z >>> (4 * j)) &&& 1) ∘ Nat.succ) (List.range n)) =
        ((z >>> (4 * 0)) &&& 1) + 16 * nibs2nat
          (List.map ((fun j => (z >>> (4 * j)) &&& 1) ∘ Nat.succ) (List.range n))
        from rfl, h0]
    congr 1
    rw [ih (z >>> 4)]
    refine congrArg (fun t => 16 * nibs2nat t) (List.map_congr_left ?_)
    intro j _
    simp only [Function.comp]
    rw [show 4 * Nat.succ j = 4 + 4 * j by omega, Nat.shiftRight_add]

theorem nibs2nat_mul : ∀ (ds : List Nat) (c : Nat),
    nibs2nat ds * c = nibs2nat (ds.map (fun d => d * c)) := by
  intro ds
  induction ds with
  | nil => intro c; simp [nibs2nat]
  | cons d ds ih =>
    intro c
    show (d + 16 * nibs2nat ds) * c = d * c + 16 * nibs2nat (ds.map (fun d => d * c))
    rw [← ih c]
    ring

theorem nibs2nat_nib : ∀ (ds : List Nat), (∀ d ∈ ds, d < 16) →
    ∀ i : Nat, (nibs2nat ds >>> (4 * i)) &&& 15 = ds.getD i 0 := by
  intro ds
  induction ds with
  | nil => intro _ i; simp [nibs2nat]
  | cons d ds ih =>
    intro h i
    have hd : d < 16 := h d (by simp)
    cases i with
    | zero =>
      show (nibs2nat (d :: ds) >>> (4 * 0)) &&& 15 = d
      rw [show 4 * 0 = 0 from rfl, Nat.shiftRight_zero,
        show nibs2nat (d :: ds) = d + 16 * nibs2nat ds from rfl,
        show (15 : Nat) = 2 ^ 4 - 1 by norm_num,
        Nat.and_pow_two_sub_one_eq_mod,
        show (2 : Nat) ^ 4 = 16 by norm_num,
        Nat.add_mul_mod_self_left, Nat.mod_eq_of_lt hd]
    | succ i =>
      have hshift : nibs2nat (d :: ds) >>> 4 = nibs2nat ds := by
        rw [show nibs2nat (d :: ds) = d + 16 * nibs2nat ds from rfl,
          Nat.shiftRight_eq_div_pow, show (2 : Nat) ^ 4 = 16 by norm_num,
          Nat.add_mul_div_left _ _ (by norm_num : (0 : Nat) < 16),
          Nat.div_eq_of_lt hd, Nat.zero_add]
      rw [show 4 * Nat.succ i = 4 + 4 * i by omega, Nat.shiftRight_add, hshift,
        ih (fun x hx => h x (by simp [hx])) i]
      rfl

theorem getD_map_range (f : Nat → Nat) {t n : Nat} (ht : t < n) :
    ((List.range n).map f).getD t 0 = f t := by
  simp [List.getD_eq_getElem?_getD, List.getElem?_map, List.getElem?_range ht]

theorem nib_xor (p q s : Nat) :
    ((p ^^^ q) >>> s) &&& 15 = ((p >>> s) &&& 15) ^^^ ((q >>> s) &&& 15) := by
  apply Nat.eq_of_testBit_eq
  intro j
  simp only [Nat.testBit_and, Nat.testBit_xor, Nat.testBit_shiftRight, testBit_15]
  exact Bool.and_xor_distrib_right _ _ _

theorem and_15_and_1 (w : Nat) : (w &&& 15) &&& 1 = w &&& 1 := by
  rw [Nat.and_assoc, show (15 : Nat) &&& 1 = 1 by decide]

theorem nib_bit (w k : Nat) (hk : k < 4) :
    ((w &&& 15) >>> k) &&& 1 = (w >>> k) &&& 1 := by
  apply Nat.eq_of_testBit_eq
  intro j
  simp only [Nat.testBit_and, Nat.testBit_shiftRight, testBit_15, testBit_1]
  by_cases hj : j = 0
  · subst hj
    simp [Nat.add_zero, hk]
  · simp [show ¬(j < 1) by omega]

theorem plane_lt (z c : Nat) (hc : c < 16) :
    (z &&& 0x1111111111111111) * c < 2 ^ 64 := by
  have h1 : z &&& 0x1111111111111111 ≤ 0x1111111111111111 := Nat.and_le_right
  have h2 : (z &&& 0x1111111111111111) * c ≤ 0x1111111111111111 * 15 :=
    Nat.mul_le_mul h1 (by omega)
  have h3 : (0x1111111111111111 : Nat) * 15 < 2 ^ 64 := by norm_num
  omega

theorem mul_table_byte0_lt : ∀ a : Nat, a < 16 → mul_table a &&& 0xff < 16 := by
  decide

set_option maxRecDepth 8192 in
theorem nibble_mac : ∀ a : Nat, a < 16 → ∀ v : Nat, v < 16 →
    ((v &&& 1) * (mul_table a &&& 0xff)) ^^^
      (((v >>> 1) &&& 1) * ((mul_table a >>> 8) &&& 0xf)) ^^^
      (((v >>> 2) &&& 1) * ((mul_table a >>> 16) &&& 0xf)) ^^^
      (((v >>> 3) &&& 1) * ((mul_table a >>> 24) &&& 0xf)) = mul_f a v := by
  decide

theorem plane_nib (z c t : Nat) (ht : t < 16) (hc : c < 16) :
    (((z &&& 0x1111111111111111) * c) >>> (4 * t)) &&& 15 =
      ((z >>> (4 * t)) &&& 1) * c := by
  have hmask : (0x1111111111111111 : Nat) = nibs2nat (List.replicate 16 1) := by
    decide
  rw [hmask, and_mask_nibs 16 z, nibs2nat_mul, List.map_map]
  have hbound : ∀ d ∈ (List.range 16).map
      ((fun d => d * c) ∘ fun j => (z >>> (4 * j)) &&& 1), d < 16 := by
    intro d hd
    simp only [List.mem_map, Function.comp] at hd
    obtain ⟨j, _, rfl⟩ := hd
    have h1 : (z >>> (4 * j)) &&& 1 ≤ 1 := Nat.and_le_right
    have h2 : ((z >>> (4 * j)) &&& 1) * c ≤ 1 * c := Nat.mul_le_mul h1 (Nat.le_refl c)
    omega
  rw [nibs2nat_nib _ hbound t, getD_map_range _ ht]
  simp [Function.comp]

theorem mac_limb (a x y t : Nat) (ha : a < 16) (ht : t < 16) :
    ((y ^^^
      ((((x &&& 0x1111111111111111) * (mul_table a &&& 0xff)) % 2 ^ 64) ^^^
       ((((x >>> 1) &&& 0x1111111111111111) * ((mul_table a >>> 8) &&& 0xf)) % 2 ^ 64) ^^^
       ((((x >>> 2) &&& 0x1111111111111111) * ((mul_table a >>> 16) &&& 0xf)) % 2 ^ 64) ^^^
       ((((x >>> 3) &&& 0x1111111111111111) * ((mul_table a >>> 24) &&& 0xf)) % 2 ^ 64))) >>>
        (t * 4)) &&& 0xF =
      ((y >>> (t * 4)) &&& 0xF) ^^^ mul_f a ((x >>> (t * 4)) &&& 0xF) := by
  have hc0 := mul_table_byte0_lt a ha
  have hc1 : (mul_table a >>> 8) &&& 0xf < 16 := by
    have : (mul_table a >>> 8) &&& 0xf ≤ 0xf := Nat.and_le_right
    omega
  have hc2 : (mul_table a >>> 16) &&& 0xf < 16 := by
    have : (mul_table a >>> 16) &&& 0xf ≤ 0xf := Nat.and_le_right
    omega
  have hc3 : (mul_table a >>> 24) &&& 0xf < 16 := by
    have : (mul_table a >>> 24) &&& 0xf ≤ 0xf := Nat.and_le_right
    omega
  rw [Nat.mod_eq_of_lt (plane_lt _ _ hc0), Nat.mod_eq_of_lt (plane_lt _ _ hc1),
    Nat.mod_eq_of_lt (plane_lt _ _ hc2), Nat.mod_eq_of_lt (plane_lt _ _ hc3),
    Nat.mul_comm t 4, nib_xor, nib_xor, nib_xor, nib_xor,
    plane_nib x _ t ht hc0, plane_nib (x >>> 1) _ t ht hc1,
    plane_nib (x >>> 2) _ t ht hc2, plane_nib (x >>> 3) _ t ht hc3]
  have hswap : ∀ k : Nat, k < 4 →
      ((x >>> k) >>> (4 * t)) &&& 1 = (((x >>> (4 * t)) &&& 15) >>> k) &&& 1 := by
    intro k hk
    have hsh : (x >>> k) >>> (4 * t) = (x >>> (4 * t)) >>> k := by
      rw [← Nat.shiftRight_add, ← Nat.shiftRight_add, Nat.add_comm]
    rw [nib_bit _ k hk, hsh]
  rw [hswap 1 (by omega), hswap 2 (by omega), hswap 3 (by omega),
    show (x >>> (4 * t)) &&& 1 = ((x >>> (4 * t)) &&& 15) &&& 1 from
      (and_15_and_1 _).symm]
  have hv : (x >>> (4 * t)) &&& 15 < 16 := by
    have : (x >>> (4 * t)) &&& 15 ≤ 15 := Nat.and_le_right
    omega
  exact congrArg (fun w => ((y >>> (4 * t)) &&& 15) ^^^ w)
    (nibble_mac a ha ((x >>> (4 * t)) &&& 15) hv)

/-- C5: the bitsliced multiply-accumulate is GF(16) scalar
multiply-accumulate, nibble-wise: after `m_vec_mul_add src a acc`, every
4-bit nibble `j` of the accumulator equals its old value XOR
`mul_f a` of nibble `j` of the source. -/
theorem C5_bitsliced_mac (src acc : List Nat) (a m_vec_limbs : Nat) (ha : a < 16)
    (hs : src.length = m_vec_limbs) (hac : acc.length = m_vec_limbs) :
    ∀ j, j < 16 * m_vec_limbs →
      m_extract_element (m_vec_mul_add src a acc m_vec_limbs) j =
        m_extract_element acc j ^^^ mul_f a (m_extract_element src j) := by
  intro j hj
  have hdiv : j / 16 < m_vec_limbs := Nat.div_lt_of_lt_mul hj
  have hmod : j % 16 < 16 := Nat.mod_lt _ (by norm_num)
  have hfold := foldRange_set_getN
    (fun k w => w ^^^
      ((((getN src k &&& 0x1111111111111111) * (mul_table a &&& 0xff)) % 2 ^ 64) ^^^
       ((((getN src k >>> 1) &&& 0x1111111111111111) *
          ((mul_table a >>> 8) &&& 0xf)) % 2 ^ 64) ^^^
       ((((getN src k >>> 2) &&& 0x1111111111111111) *
          ((mul_table a >>> 16) &&& 0xf)) % 2 ^ 64) ^^^
       ((((getN src k >>> 3) &&& 0x1111111111111111) *
          ((mul_table a >>> 24) &&& 0xf)) % 2 ^ 64)))
    m_vec_limbs acc (j / 16)
  have hget : getN (m_vec_mul_add src a acc m_vec_limbs) (j / 16) =
      getN acc (j / 16) ^^^
        ((((getN src (j / 16) &&& 0x1111111111111111) *
            (mul_table a &&& 0xff)) % 2 ^ 64) ^^^
         ((((getN src (j / 16) >>> 1) &&& 0x1111111111111111) *
            ((mul_table a >>> 8) &&& 0xf)) % 2 ^ 64) ^^^
         ((((getN src (j / 16) >>> 2) &&& 0x1111111111111111) *
            ((mul_table a >>> 16) &&& 0xf)) % 2 ^ 64) ^^^
         ((((getN src (j / 16) >>> 3) &&& 0x1111111111111111) *
            ((mul_table a >>> 24) &&& 0xf)) % 2 ^ 64)) := by
    rw [show m_vec_mul_add src a acc m_vec_limbs =
        foldRange 0 m_vec_limbs acc (fun s k => setN s k
          ((fun k w => w ^^^
            ((((getN src k &&& 0x1111111111111111) *
                (mul_table a &&& 0xff)) % 2 ^ 64) ^^^
             ((((getN src k >>> 1) &&& 0x1111111111111111) *
                ((mul_table a >>> 8) &&& 0xf)) % 2 ^ 64) ^^^
             ((((getN src k >>> 2) &&& 0x1111111111111111) *
                ((mul_table a >>> 16) &&& 0xf)) % 2 ^ 64) ^^^
             ((((getN src k >>> 3) &&& 0x1111111111111111) *
                ((mul_table a >>> 24) &&& 0xf)) % 2 ^ 64))) k (getN s k))) from rfl,
      hfold, if_pos ⟨hdiv, by omega⟩]
  show (getN (m_vec_mul_add src a acc m_vec_limbs) (j / 16) >>> (j % 16 * 4)) &&& 0xF = _
  rw [hget]
  exact mac_limb a (getN src (j / 16)) (getN acc (j / 16)) (j % 16) ha hmod

theorem C5_witness :
    m_extract_element
        (m_vec_mul_add [0x0123456789abcdef] 9 [0xfedcba9876543210] 1) 5 =
      m_extract_element [0xfedcba9876543210] 5 ^^^
        mul_f 9 (m_extract_element [0x0123456789abcdef] 5) :=
  C5_bitsliced_mac [0x0123456789abcdef] [0xfedcba9876543210] 9 1 (by decide)
    rfl rfl 5 (by decide)

theorem foldRange_copy_length (f : Nat → Nat) (off : Nat) :
    ∀ (n : Nat) (d : List Nat),
      ((List.range n).foldl (fun acc j => setN acc (off + j) (f j)) d).length =
        d.length := by
  intro n
  induction n with
  | zero => intro d; rfl
  | succ n ih =>
    intro d
    rw [List.range_succ, List.foldl_append]
    simp only [List.foldl_cons, List.foldl_nil]
    rw [setN, List.length_set]
    exact ih d

theorem getN_foldRange_copy (f : Nat → Nat) (off : Nat) :
    ∀ (n : Nat) (d : List Nat) (i : Nat),
      getN ((List.range n).foldl (fun acc j => setN acc (off + j) (f j)) d) i =
        if off ≤ i ∧ i < off + n ∧ i < d.length then f (i - off) else getN d i := by
  intro n
  induction n with
  | zero =>
    intro d i
    simp only [List.range_zero, List.foldl_nil]
    rw [if_neg (by omega)]
  | succ n ih =>
    intro d i
    rw [List.range_succ, List.foldl_append]
    simp only [List.foldl_cons, List.foldl_nil]
    rw [getN_setN, foldRange_copy_length]
    by_cases h1 : off + n = i
    · by_cases h2 : i < d.length
      · rw [if_pos ⟨h1, by omega⟩, if_pos (by omega)]
        congr 1
        omega
      · rw [if_neg (by omega), ih d i, if_neg (by omega), if_neg (by omega)]
    · rw [if_neg (by omega), ih d i]
      by_cases h3 : off ≤ i ∧ i < off + n ∧ i < d.length
      · rw [if_pos h3, if_pos (by omega)]
      · rw [if_neg h3, if_neg (by omega)]

theorem copySlice_length (d s : List Nat) (off : Nat) :
    (copySlice d off s).length = d.length :=
  foldRange_copy_length (fun j => getN s j) off s.length d

theorem getN_copySlice (d s : List Nat) (off i : Nat) :
    getN (copySlice d off s) i =
      if off ≤ i ∧ i < off + s.length ∧ i < d.length then getN s (i - off)
      else getN d i :=
  getN_foldRange_copy (fun j => getN s j) off s.length d i

theorem getN_eq_getElem (xs : List Nat) (i : Nat) (h : i < xs.length) :
    getN xs i = xs[i] := by
  simp [getN, List.getD_eq_getElem?_getD, List.getElem?_eq_getElem h]

theorem copySlice_id (d s : List Nat) (h : s.length = d.length) :
    copySlice d 0 s = s := by
  apply List.ext_getElem
  · rw [copySlice_length, h]
  · intro i h1 h2
    rw [← getN_eq_getElem _ i h1, ← getN_eq_getElem _ i h2, getN_copySlice]
    rw [if_pos ⟨by omega, by rw [copySlice_length] at h1; omega⟩]
    congr 1

theorem derive_cpk_length (p : MayoParams) (shake aes : List Nat → Nat → List Nat)
    (csk : List Nat) : (derive_cpk_from_csk p shake aes csk).length = p.cpkBytes := by
  simp [derive_cpk_from_csk, copySlice_length]

/-- C3: `KeyPair::from_seed` on a seed of the correct length succeeds,
stores the seed itself as the compact secret key, and derives the compact
public key with `derive_cpk_from_csk`; being a pure function of the seed
(it draws no randomness), two invocations give identical results. -/
theorem C3_from_seed (p : MayoParams) (shake aes : List Nat → Nat → List Nat)
    (seed : List Nat) (hlen : seed.length = p.skSeedBytes)
    (hcs : p.cskBytes = p.skSeedBytes) :
    keypair_from_seed p shake aes seed =
      .ok (seed, derive_cpk_from_csk p shake aes seed) ∧
    (∀ r1 r2 : Except Error (List Nat × List Nat),
      keypair_from_seed p shake aes seed = r1 →
      keypair_from_seed p shake aes seed = r2 → r1 = r2) := by
  have hseed : (copySlice (List.replicate p.cskBytes 0) 0 seed) = seed :=
    copySlice_id _ _ (by simp [hlen, hcs])
  have hcsk : seed.length = p.cskBytes := by rw [hlen, hcs]
  constructor
  · simp only [keypair_from_seed, hlen, bne_self_eq_false, Bool.false_eq_true,
      if_false, hseed]
    simp only [signing_key_try_from, verifying_key_try_from, hcsk,
      bne_self_eq_false, Bool.false_eq_true, if_false, derive_cpk_length,
      hlen]
    rfl
  · intro r1 r2 h1 h2
    rw [← h1, ← h2]

theorem C3_witness :
    keypair_from_seed mayo1 (fun _ len => List.replicate len 0)
        (fun _ len => List.replicate len 0) (List.replicate 24 0) =
      .ok (List.replicate 24 0,
        derive_cpk_from_csk mayo1 (fun _ len => List.replicate len 0)
          (fun _ len => List.replicate len 0) (List.replicate 24 0)) :=
  (C3_from_seed mayo1 (fun _ len => List.replicate len 0)
    (fun _ len => List.replicate len 0) (List.replicate 24 0)
    (by simp [mayo1]) (by decide)).1

/-- C2: `mayo_verify` succeeds if and only if the recomputed public-map
evaluation `y` equals (in its first `m` entries) the target vector `t`
derived from `SHAKE256(digest || salt)`, and returns
`VerificationFailed` exactly otherwise. -/
theorem C2_verify_iff (p : MayoParams) (shake aes : List Nat → Nat → List Nat)
    (msg sig cpk : List Nat) (hsig : sig.length = p.sigBytes)
    (hcpk : cpk.length = p.cpkBytes) :
    (mayo_verify p shake aes msg sig cpk = .ok () ↔
      (mayo_verify_core p shake aes msg sig cpk).2.take p.M =
        (mayo_verify_core p shake aes msg sig cpk).1.take p.M) ∧
    (mayo_verify p shake aes msg sig cpk = .error .VerificationFailed ↔
      (mayo_verify_core p shake aes msg sig cpk).2.take p.M ≠
        (mayo_verify_core p shake aes msg sig cpk).1.take p.M) := by
  unfold mayo_verify
  by_cases h : (mayo_verify_core p shake aes msg sig cpk).2.take p.M =
      (mayo_verify_core p shake aes msg sig cpk).1.take p.M <;>
    simp [h]

set_option maxRecDepth 8192 in
theorem C2_witness :
    (mayo_verify mayo1 (fun _ len => List.replicate len 0)
        (fun _ len => List.replicate len 0) [] (List.replicate 454 0)
        (List.replicate 1420 0) = .ok () ↔
      (mayo_verify_core mayo1 (fun _ len => List.replicate len 0)
          (fun _ len => List.replicate len 0) [] (List.replicate 454 0)
          (List.replicate 1420 0)).2.take mayo1.M =
        (mayo_verify_core mayo1 (fun _ len => List.replicate len 0)
            (fun _ len => List.replicate len 0) [] (List.replicate 454 0)
            (List.replicate 1420 0)).1.take mayo1.M) :=
  (C2_verify_iff mayo1 (fun _ len => List.replicate len 0)
    (fun _ len => List.replicate len 0) [] (List.replicate 454 0)
    (List.replicate 1420 0) (by simp [mayo1]) (by simp [mayo1])).1

set_option maxRecDepth 100000 in
set_option maxHeartbeats 2000000 in
/-- C1: the claim fails on the code.  `mayo_sign_signature` has no error
path at all: for every parameter set, XOF/RNG model and input it returns
`Ok(SIG_BYTES)` (first conjunct) — the ctr loop merely `break`s on
success and the function falls through to assemble a signature from the
last (failed) attempt.  The second conjunct exhibits a concrete
instantiation (toy parameter set, all-zero XOF) in which
`sample_solution` returns `false` for every ctr in 0..=255 — the exact
hypothesis of the claim — while the first conjunct shows the result is
still `Ok`, never `Err(Signing)`. -/
theorem C1_sign_never_errors :
    (∀ (p : MayoParams) (shake aes : List Nat → Nat → List Nat)
      (rand msg csk : List Nat),
      (mayo_sign_signature p shake aes rand msg csk).2 = .ok p.sigBytes) ∧
    (∀ ctr : Nat, ctr < 256 →
      (sign_attempt mayoToy zeroXof
        (sign_prelude mayoToy zeroXof zeroXof [] [] (List.replicate 2 0)).pAll
        (sign_prelude mayoToy zeroXof zeroXof [] [] (List.replicate 2 0)).tmp
        (sign_prelude mayoToy zeroXof zeroXof [] [] (List.replicate 2 0)).t
        (List.replicate 2 0) (List.replicate 2 0) ctr).1 = false) := by
  constructor
  · intro p shake aes rand msg csk
    rfl
  · intro ctr _
    have hctr : sign_attempt mayoToy zeroXof
        (sign_prelude mayoToy zeroXof zeroXof [] [] (List.replicate 2 0)).pAll
        (sign_prelude mayoToy zeroXof zeroXof [] [] (List.replicate 2 0)).tmp
        (sign_prelude mayoToy zeroXof zeroXof [] [] (List.replicate 2 0)).t
        (List.replicate 2 0) (List.replicate 2 0) ctr =
      sign_attempt mayoToy zeroXof
        (sign_prelude mayoToy zeroXof zeroXof [] [] (List.replicate 2 0)).pAll
        (sign_prelude mayoToy zeroXof zeroXof [] [] (List.replicate 2 0)).tmp
        (sign_prelude mayoToy zeroXof zeroXof [] [] (List.replicate 2 0)).t
        (List.replicate 2 0) (List.replicate 2 0) 0 := by
      simp only [sign_attempt, zeroXof]
    rw [hctr]
    decide

theorem C1_witness :
    (mayo_sign_signature mayo1 zeroXof zeroXof [] []
      (List.replicate 24 0)).2 = .ok mayo1.sigBytes ∧
    (sign_attempt mayoToy zeroXof
      (sign_prelude mayoToy zeroXof zeroXof [] [] (List.replicate 2 0)).pAll
      (sign_prelude mayoToy zeroXof zeroXof [] [] (List.replicate 2 0)).tmp
      (sign_prelude mayoToy zeroXof zeroXof [] [] (List.replicate 2 0)).t
      (List.replicate 2 0) (List.replicate 2 0) 255).1 = false :=
  ⟨C1_sign_never_errors.1 mayo1 zeroXof zeroXof [] [] (List.replicate 24 0),
   C1_sign_never_errors.2 255 (by decide)⟩
